import Mathlib

/-!
Shallow embedding of the quad-batching tile renderer `ThreeTilemapRectLayer`
(ThreeTilemap.js).  JS numbers are modelled as rationals, `Float32Array`
buffers as total functions `ℕ → ℚ` together with an explicit capacity
(indices beyond the written region read 0, as a fresh `Float32Array` does),
JS growable arrays as Lean lists, and the per-`setNumber` dictionaries as
total functions from ℤ with `Option` tracking key existence.  The external
`ThreeWaterShader` module is an opaque classifier passed as a parameter.
-/

namespace ThreeTilemap

/-- Fixed square size of one layer of the array texture (`TILESET_TEX_SIZE`). -/
def texSize : ℚ := 768

/-- Number of layers of the array texture (`TILESET_LAYER_COUNT`, A1..A5 + B..E). -/
def layerCount : ℕ := 9

/-- Bytes in one layer slice of the array texture (`TILESET_TEX_SIZE² · 4`). -/
def layerByteSize : ℕ := 768 * 768 * 4

/-- One per-`setNumber` growable vertex store:
`{ positions: Float32Array, uvs: Float32Array, count, capacity }`.
The two buffers have length `capacity * 12` in JS; reads beyond the
written region yield 0. -/
structure RectSet where
  positions : ℕ → ℚ
  uvs : ℕ → ℚ
  count : ℕ
  capacity : ℕ

/-- The store allocated on first `addRect` for a set: 1000 quads capacity. -/
def freshRectSet : RectSet :=
  { positions := fun _ => 0, uvs := fun _ => 0, count := 0, capacity := 1000 }

/-- Capacity doubling: `new Float32Array(newCapacity*12)` (zero-filled) and
`newArr.set(oldArr)` where the old array has length `capacity*12`. -/
def grow (d : RectSet) : RectSet :=
  { positions := fun i => if i < d.capacity * 12 then d.positions i else 0
    uvs := fun i => if i < d.capacity * 12 then d.uvs i else 0
    count := d.count
    capacity := d.capacity * 2 }

/-- The block of consecutive `Float32Array` assignments
`f[base+k] = vals[k]` for `k < vals.length`. -/
def writeBlock (f : ℕ → ℚ) (base : ℕ) (vals : List ℚ) : ℕ → ℚ :=
  fun i => if base ≤ i ∧ i < base + vals.length then vals.getD (i - base) 0 else f i

/-- The external water classifier interface consumed from `ThreeWaterShader`. -/
structure WaterClassifier where
  isWaterRect : ℚ → ℚ → Bool
  isWaterfallRect : ℚ → ℚ → Bool
  isKindEnabled : ℤ → Bool

/-- Source texture as seen through `_extractThreeTexture`: decoded image
presence, its pixel size, a version counter and the rasterized pixel bytes. -/
structure Bitmap where
  hasImage : Bool
  width : ℕ
  height : ℕ
  version : ℤ
  pixels : ℕ → ℕ

/-- The `DataArrayTexture` bookkeeping: backing byte store, `needsUpdate`
flag, and the per-layer `_layerLoaded` / `_layerImageVersions` records. -/
structure TexState where
  dataFn : ℕ → ℕ
  dirty : Bool
  loaded : ℕ → Bool
  versions : ℕ → ℤ

/-- Freshly created array texture (`needsUpdate = true`, nothing loaded). -/
def newTexState : TexState :=
  { dataFn := fun _ => 0, dirty := true, loaded := fun _ => false, versions := fun _ => 0 }

/-- Key of an entry of the `_meshes` cache: the shadow mesh is stored at
string key `-1`; a water mesh at `setNumber + '_' + ('wf'|'w') + '_' + kind`. -/
inductive MeshKey where
  | shadow : MeshKey
  | water : ℤ → Bool → ℤ → MeshKey
deriving DecidableEq, Repr

/-- Geometry attributes and user data of a cached (shadow or water) mesh. -/
structure Mesh where
  pos : List ℚ
  normal : List ℚ := []
  uv : List ℚ := []
  uvBounds : List ℚ := []
  visible : Bool
  isWaterMesh : Bool := false
  isWaterfall : Bool := false
  a1Kinds : List ℤ := []
  texW : ℚ := 1
  texH : ℚ := 1
deriving DecidableEq, Repr

/-- Geometry attributes and user data of the unified mesh. -/
structure UMesh where
  pos : List ℚ
  normal : List ℚ
  uv : List ℚ
  layer : List ℚ
  visible : Bool
  maxDrawZ : ℤ
deriving DecidableEq, Repr

/-- Post-classification record `{setNumber, index, drawZ}` of `_flush`. -/
structure URect where
  setNumber : ℤ
  index : ℕ
  drawZ : ℤ
deriving DecidableEq, Repr, Inhabited

/-- Rendering environment read by the builders: the external classifier
(`ThreeWaterShader`), `ConfigManager.mode3d` and `$dataMap.tileLayerElevation`. -/
structure Env where
  wc : WaterClassifier
  is3D : Bool
  mapElevation : Bool

/-- The mutable state of one `ThreeTilemapRectLayer` that the claims are
about: rect stores, parallel per-rect arrays, z cursor, dirty flag,
animation phases, bound bitmaps, array texture, built meshes. -/
structure TLState where
  rectData : ℤ → Option RectSet
  animData : ℤ → List ℚ
  kindData : ℤ → List ℤ
  drawZData : ℤ → List ℤ
  currentDrawZ : ℤ
  needsRebuild : Bool
  tileAnimX : ℚ
  tileAnimY : ℚ
  lastTileAnimX : ℚ
  lastTileAnimY : ℚ
  bitmaps : List (Option Bitmap)
  tex : Option TexState
  unifiedMesh : Option UMesh
  unifiedRects : Option (List URect)
  meshes : List (MeshKey × Mesh)

/-- State of a freshly constructed layer. -/
def initState : TLState :=
  { rectData := fun _ => none
    animData := fun _ => []
    kindData := fun _ => []
    drawZData := fun _ => []
    currentDrawZ := 0
    needsRebuild := false
    tileAnimX := 0, tileAnimY := 0, lastTileAnimX := 0, lastTileAnimY := 0
    bitmaps := []
    tex := none
    unifiedMesh := none
    unifiedRects := none
    meshes := [] }

/-- The rect store of a set, as the readers see it (`count` 0 when absent). -/
def getRS (st : TLState) (s : ℤ) : RectSet :=
  (st.rectData s).getD freshRectSet

/-- Arguments of one `addRect` call.  `animX`, `animY`, `a1Kind` are the
optional trailing JS arguments (`animX || 0`, `animY || 0`,
`a1Kind != null ? a1Kind : -1`). -/
structure AddData where
  set : ℤ
  u : ℚ
  v : ℚ
  x : ℚ
  y : ℚ
  w : ℚ
  h : ℚ
  animX : Option ℚ := none
  animY : Option ℚ := none
  kind : Option ℤ := none
deriving Inhabited

/-- Position entries of one quad, two triangles TL,TR,BL / TR,BR,BL. -/
def posVals (a : AddData) : List ℚ :=
  [a.x, a.y, a.x + a.w, a.y, a.x, a.y + a.h,
   a.x + a.w, a.y, a.x + a.w, a.y + a.h, a.x, a.y + a.h]

/-- Pixel-UV entries of one quad, same vertex order. -/
def uvVals (a : AddData) : List ℚ :=
  [a.u, a.v, a.u + a.w, a.v, a.u, a.v + a.h,
   a.u + a.w, a.v, a.u + a.w, a.v + a.h, a.u, a.v + a.h]

/-- The rect-store part of one `addRect` call: grow on overflow
(`idx >= capacity`), write the 12 position and 12 UV entries at
`pi = idx * 12`, bump `count`. -/
def bumpRS (d0 : RectSet) (a : AddData) : RectSet :=
  let d1 := if d0.capacity ≤ d0.count then grow d0 else d0
  let pi := d1.count * 12
  { d1 with
    positions := writeBlock d1.positions pi (posVals a)
    uvs := writeBlock d1.uvs pi (uvVals a)
    count := d1.count + 1 }

/-- `ThreeTilemapRectLayer.prototype.addRect`. -/
def addRectFn (st : TLState) (a : AddData) : TLState :=
  let d2 := bumpRS (getRS st a.set) a
  { st with
    rectData := fun s => if s = a.set then some d2 else st.rectData s
    animData := fun s =>
      if s = a.set then st.animData a.set ++ [a.animX.getD 0, a.animY.getD 0]
      else st.animData s
    kindData := fun s =>
      if s = a.set then st.kindData a.set ++ [a.kind.getD (-1)] else st.kindData s
    drawZData := fun s =>
      if s = a.set then st.drawZData a.set ++ [st.currentDrawZ] else st.drawZData s
    needsRebuild := true }

/-- `ThreeTilemapRectLayer.prototype.clear`: counts and side-array lengths
are zeroed, buffers and capacities are kept. -/
def clearFn (st : TLState) : TLState :=
  { st with
    rectData := fun s => (st.rectData s).map (fun d => { d with count := 0 })
    animData := fun _ => []
    kindData := fun _ => []
    drawZData := fun _ => []
    unifiedRects := none
    needsRebuild := true }

/-- `ThreeTilemapRectLayer.prototype.setBitmaps`: rebind sources, zero the
whole backing store, drop every loaded flag. -/
def setBitmapsFn (st : TLState) (bm : List (Option Bitmap)) : TLState :=
  { st with
    bitmaps := bm
    tex := st.tex.map (fun t =>
      { t with dataFn := fun _ => 0, dirty := true, loaded := fun _ => false })
    needsRebuild := true }

/-- The caller-side z-cursor assignment to `_currentDrawZ`. -/
def setDrawZFn (st : TLState) (z : ℤ) : TLState :=
  { st with currentDrawZ := z }

/-- The caller-side animation phase assignment to `_tileAnimX/_tileAnimY`. -/
def setAnimFn (st : TLState) (ax ay : ℚ) : TLState :=
  { st with tileAnimX := ax, tileAnimY := ay }

/-- Mutation commands used to describe a caller session. -/
inductive Cmd where
  | add : AddData → Cmd
  | setZ : ℤ → Cmd

/-- Run one command. -/
def applyCmd (st : TLState) : Cmd → TLState
  | Cmd.add a => addRectFn st a
  | Cmd.setZ z => setDrawZFn st z

/-- Run a command list, left to right. -/
def applyCmds (st : TLState) : List Cmd → TLState
  | [] => st
  | c :: r => applyCmds (applyCmd st c) r

/-! ### Array texture management (`_ensureArrayTexture`) -/

/-- Whether layer `i` has a bound source whose decoded image is usable
(`tex && tex.image && tex.image.width && tex.image.height`). -/
def readyBM (bm : List (Option Bitmap)) (i : ℕ) : Bool :=
  match bm.getD i none with
  | none => false
  | some b => b.hasImage && decide (0 < b.width) && decide (0 < b.height)

/-- Current version of the source at layer `i` (`tex.version || 0`). -/
def versionBM (bm : List (Option Bitmap)) (i : ℕ) : ℤ :=
  match bm.getD i none with
  | none => 0
  | some b => b.version

/-- `_copyImageToLayer`: rasterized pixels overwrite depth slice `i`. -/
def copyLayer (t : TexState) (i : ℕ) (b : Bitmap) : TexState :=
  { t with
    dataFn := fun j =>
      if i * layerByteSize ≤ j ∧ j < i * layerByteSize + layerByteSize then
        b.pixels (j - i * layerByteSize)
      else t.dataFn j
    loaded := fun j => if j = i then true else t.loaded j
    versions := fun j => if j = i then b.version else t.versions j }

/-- One iteration of the per-layer scan loop; the `Bool` reports whether a
copy was performed. -/
def scanOne (bm : List (Option Bitmap)) (t : TexState) (i : ℕ) : TexState × Bool :=
  match bm.getD i none with
  | none => (t, false)
  | some b =>
    if b.hasImage && decide (0 < b.width) && decide (0 < b.height) then
      if t.loaded i && decide (t.versions i = b.version) then (t, false)
      else (copyLayer t i b, true)
    else (t, false)

/-- The scan loop over a list of layer indices, counting copies. -/
def scanList (bm : List (Option Bitmap)) (t : TexState) (c : ℕ) : List ℕ → TexState × ℕ
  | [] => (t, c)
  | i :: rest =>
    let r := scanOne bm t i
    scanList bm r.1 (if r.2 then c + 1 else c) rest

/-- `_ensureArrayTexture`: create the texture on first use, scan all 9
layers, set `needsUpdate` when anything was copied.  Also returns the
number of copy operations performed by this scan. -/
def ensureTex (bm : List (Option Bitmap)) (t0 : Option TexState) : TexState × ℕ :=
  let t := t0.getD newTexState
  let r := scanList bm t 0 (List.range layerCount)
  ({ r.1 with dirty := if r.2 ≠ 0 then true else r.1.dirty }, r.2)

/-! ### Classification and stable sort (`_flush`, lines 489-533) -/

/-- The water test applied to rect `i` of set `s` during classification:
`isWaterRect(animX, animY) && (kind < 0 || isKindEnabled(kind))`. -/
def hasWaterAt (wc : WaterClassifier) (st : TLState) (s : ℤ) (i : ℕ) : Bool :=
  let ax := (st.animData s).getD (2 * i) 0
  let ay := (st.animData s).getD (2 * i + 1) 0
  let k := (st.kindData s).getD i (-1)
  wc.isWaterRect ax ay && (decide (k < 0) || wc.isKindEnabled k)

/-- Classified contribution of set `s` to the flat unified list: every rect
of the set except, for set 0 only, the water-classified ones. -/
def classifySet (wc : WaterClassifier) (st : TLState) (s : ℤ) : List URect :=
  (List.range (getRS st s).count).filterMap fun i =>
    if s = 0 && hasWaterAt wc st s i then none
    else some ⟨s, i, (st.drawZData s).getD i 0⟩

/-- JS `for..in` over `_rectData` visits canonical array indices in
ascending order first; the shadow key `-1` is handled separately. -/
def unifiedKeys : List ℤ := [0, 1, 2, 3, 4, 5, 6, 7, 8]

/-- The flat pre-sort unified rect list accumulated by `_flush`. -/
def allRectsOf (wc : WaterClassifier) (st : TLState) : List URect :=
  unifiedKeys.flatMap (classifySet wc st)

/-- Comparator `(a, b) => a.drawZ - b.drawZ`. -/
def leZ (a b : URect) : Prop := a.drawZ ≤ b.drawZ

instance : DecidableRel leZ := fun a b => Int.decLe a.drawZ b.drawZ

instance : IsTotal URect leZ := ⟨fun a b => Int.le_total a.drawZ b.drawZ⟩

instance : IsTrans URect leZ := ⟨fun _ _ _ h1 h2 => le_trans h1 h2⟩

/-- `allRects.sort((a, b) => a.drawZ - b.drawZ)`: ascending stable sort. -/
def sortRects (l : List URect) : List URect := List.insertionSort leZ l

/-- `hasWaterBySet[setNumber]`: only set 0 rects are ever water-tested. -/
def hasWaterSet (wc : WaterClassifier) (st : TLState) (s : ℤ) : Bool :=
  decide (s = 0) && (List.range (getRS st s).count).any (hasWaterAt wc st s)

/-! ### Mesh store helpers -/

/-- `this._meshes[key]`. -/
def lookupMesh : List (MeshKey × Mesh) → MeshKey → Option Mesh
  | [], _ => none
  | p :: r, k => if p.1 = k then some p.2 else lookupMesh r k

/-- `this._meshes[key] = m` (overwrite the existing entry or append). -/
def setMesh : List (MeshKey × Mesh) → MeshKey → Mesh → List (MeshKey × Mesh)
  | [], k, m => [(k, m)]
  | p :: r, k, m => if p.1 = k then (k, m) :: r else p :: setMesh r k m

/-! ### Unified mesh builder (`_buildUnifiedMesh`) -/

/-- Elevation z offset of a quad: `-drawZ * 0.01` when enabled, else 0. -/
def zOffsetOf (elev : Bool) (drawZ : ℤ) : ℚ :=
  if elev then -(drawZ : ℚ) * (1 / 100) else 0

/-- The 18 position entries written for unified rect `r` (x, y, zOffset per
vertex; loop over `j` unrolled). -/
def uQuadPos (st : TLState) (r : URect) (elev : Bool) : List ℚ :=
  let d := getRS st r.setNumber
  let o := 12 * r.index
  let z := zOffsetOf elev ((st.drawZData r.setNumber).getD r.index 0)
  [d.positions o, d.positions (o + 1), z,
   d.positions (o + 2), d.positions (o + 3), z,
   d.positions (o + 4), d.positions (o + 5), z,
   d.positions (o + 6), d.positions (o + 7), z,
   d.positions (o + 8), d.positions (o + 9), z,
   d.positions (o + 10), d.positions (o + 11), z]

/-- The 18 normal entries of one quad: camera-facing `(0, 0, -1)` each. -/
def quadNormal : List ℚ :=
  [0, 0, -1, 0, 0, -1, 0, 0, -1, 0, 0, -1, 0, 0, -1, 0, 0, -1]

/-- The 12 UV entries written for unified rect `r`:
`(storedPixelUV + animOffset·phase) / TILESET_TEX_SIZE`, no vertical flip. -/
def uQuadUV (st : TLState) (r : URect) (tAx tAy : ℚ) : List ℚ :=
  let d := getRS st r.setNumber
  let o := 12 * r.index
  let ax := (st.animData r.setNumber).getD (2 * r.index) 0 * tAx
  let ay := (st.animData r.setNumber).getD (2 * r.index + 1) 0 * tAy
  [(d.uvs o + ax) / texSize, (d.uvs (o + 1) + ay) / texSize,
   (d.uvs (o + 2) + ax) / texSize, (d.uvs (o + 3) + ay) / texSize,
   (d.uvs (o + 4) + ax) / texSize, (d.uvs (o + 5) + ay) / texSize,
   (d.uvs (o + 6) + ax) / texSize, (d.uvs (o + 7) + ay) / texSize,
   (d.uvs (o + 8) + ax) / texSize, (d.uvs (o + 9) + ay) / texSize,
   (d.uvs (o + 10) + ax) / texSize, (d.uvs (o + 11) + ay) / texSize]

/-- The 6 `aTextureLayer` entries of one quad: the rect's `setNumber`. -/
def uQuadLayer (r : URect) : List ℚ :=
  [(r.setNumber : ℚ), (r.setNumber : ℚ), (r.setNumber : ℚ),
   (r.setNumber : ℚ), (r.setNumber : ℚ), (r.setNumber : ℚ)]

/-- The unified position buffer. -/
def unifiedPosArray (st : TLState) (sorted : List URect) (elev : Bool) : List ℚ :=
  sorted.flatMap (fun r => uQuadPos st r elev)

/-- The unified UV buffer. -/
def unifiedUVArray (st : TLState) (sorted : List URect) (tAx tAy : ℚ) : List ℚ :=
  sorted.flatMap (fun r => uQuadUV st r tAx tAy)

/-- The unified texture-layer buffer. -/
def unifiedLayerArray (sorted : List URect) : List ℚ :=
  sorted.flatMap uQuadLayer

/-- `maxDrawZ` tracking of the build loop. -/
def maxDrawZOf (st : TLState) (sorted : List URect) : ℤ :=
  sorted.foldl (fun m r => max m ((st.drawZData r.setNumber).getD r.index 0)) 0

/-- `_buildUnifiedMesh`: store the sorted list in `_unifiedRects`, then
either hide the empty mesh or (re)write all four attribute buffers. -/
def buildUnified (env : Env) (st : TLState) (sorted : List URect) (tAx tAy : ℚ) :
    TLState :=
  let elev := !env.is3D && env.mapElevation
  if sorted.isEmpty then
    { st with
      unifiedRects := some sorted
      unifiedMesh := st.unifiedMesh.map fun m => { m with visible := false } }
  else
    { st with
      unifiedRects := some sorted
      unifiedMesh := some
        { pos := unifiedPosArray st sorted elev
          normal := sorted.flatMap fun _ => quadNormal
          uv := unifiedUVArray st sorted tAx tAy
          layer := unifiedLayerArray sorted
          visible := true
          maxDrawZ := maxDrawZOf st sorted } }

/-! ### Shadow mesh builder (`_buildShadowMesh`) -/

/-- The 18 position entries of shadow quad `i`. -/
def shQuadPos (st : TLState) (i : ℕ) (elev : Bool) : List ℚ :=
  let d := getRS st (-1)
  let o := 12 * i
  let z := zOffsetOf elev ((st.drawZData (-1)).getD i 0)
  [d.positions o, d.positions (o + 1), z,
   d.positions (o + 2), d.positions (o + 3), z,
   d.positions (o + 4), d.positions (o + 5), z,
   d.positions (o + 6), d.positions (o + 7), z,
   d.positions (o + 8), d.positions (o + 9), z,
   d.positions (o + 10), d.positions (o + 11), z]

/-- The shadow position buffer. -/
def shadowPosArray (st : TLState) (elev : Bool) : List ℚ :=
  (List.range (getRS st (-1)).count).flatMap (fun i => shQuadPos st i elev)

/-- `_buildShadowMesh` (invoked by `_flush` when set −1 is non-empty). -/
def buildShadow (env : Env) (st : TLState) : TLState :=
  let d := getRS st (-1)
  if d.count = 0 then st
  else
    let elev := !env.is3D && env.mapElevation
    { st with
      meshes := setMesh st.meshes MeshKey.shadow
        { pos := shadowPosArray st elev, visible := true } }

/-! ### Water mesh builder (`_buildWaterMesh`, `_buildWaterTypeMesh`) -/

/-- Animated `u` of vertex `j` of quad `i` of set `s` in the water texture's
native space: `(uvs[srcOff + 2j] + animX·phaseX) / texW`. -/
def wU (st : TLState) (s : ℤ) (i : ℕ) (texW tAx : ℚ) (j : ℕ) : ℚ :=
  ((getRS st s).uvs (12 * i + 2 * j) + (st.animData s).getD (2 * i) 0 * tAx) / texW

/-- Animated `v` of vertex `j` of quad `i`, vertically flipped
(bottom-origin): `1 - (uvs[srcOff + 2j + 1] + animY·phaseY) / texH`. -/
def wV (st : TLState) (s : ℤ) (i : ℕ) (texH tAy : ℚ) (j : ℕ) : ℚ :=
  1 - ((getRS st s).uvs (12 * i + 2 * j + 1) + (st.animData s).getD (2 * i + 1) 0 * tAy) / texH

/-- Minimum of six values, as the `Infinity`-seeded comparison loop yields. -/
def min6 (g : ℕ → ℚ) : ℚ := min (g 0) (min (g 1) (min (g 2) (min (g 3) (min (g 4) (g 5)))))

/-- Maximum of six values, as the `-Infinity`-seeded comparison loop yields. -/
def max6 (g : ℕ → ℚ) : ℚ := max (g 0) (max (g 1) (max (g 2) (max (g 3) (max (g 4) (g 5)))))

/-- The 12 water UV entries of quad `i`. -/
def wQuadUV (st : TLState) (s : ℤ) (i : ℕ) (texW texH tAx tAy : ℚ) : List ℚ :=
  [wU st s i texW tAx 0, wV st s i texH tAy 0,
   wU st s i texW tAx 1, wV st s i texH tAy 1,
   wU st s i texW tAx 2, wV st s i texH tAy 2,
   wU st s i texW tAx 3, wV st s i texH tAy 3,
   wU st s i texW tAx 4, wV st s i texH tAy 4,
   wU st s i texW tAx 5, wV st s i texH tAy 5]

/-- The `vec4(uMin, vMin, uMax, vMax)` clamp box of quad `i`: min/max over
its six UVs, shrunk inward by half a texel on every edge. -/
def wQuadBounds4 (st : TLState) (s : ℤ) (i : ℕ) (texW texH tAx tAy : ℚ) : List ℚ :=
  [min6 (wU st s i texW tAx) + 1 / 2 / texW,
   min6 (wV st s i texH tAy) + 1 / 2 / texH,
   max6 (wU st s i texW tAx) - 1 / 2 / texW,
   max6 (wV st s i texH tAy) - 1 / 2 / texH]

/-- The 24 `aUvBounds` entries of quad `i` (the box, per vertex). -/
def wQuadBounds (st : TLState) (s : ℤ) (i : ℕ) (texW texH tAx tAy : ℚ) : List ℚ :=
  let b := wQuadBounds4 st s i texW texH tAx tAy
  b ++ b ++ b ++ b ++ b ++ b

/-- The 18 water position entries of quad `i`.  Water elevation depends on
`$dataMap.tileLayerElevation` only (no 3D-mode check, unlike the unified
builder). -/
def wQuadPos (st : TLState) (s : ℤ) (i : ℕ) (elev : Bool) : List ℚ :=
  let d := getRS st s
  let o := 12 * i
  let z := zOffsetOf elev ((st.drawZData s).getD i 0)
  [d.positions o, d.positions (o + 1), z,
   d.positions (o + 2), d.positions (o + 3), z,
   d.positions (o + 4), d.positions (o + 5), z,
   d.positions (o + 6), d.positions (o + 7), z,
   d.positions (o + 8), d.positions (o + 9), z,
   d.positions (o + 10), d.positions (o + 11), z]

/-- Waterfall flag of rect `i` per the classifier. -/
def wfOf (wc : WaterClassifier) (st : TLState) (s : ℤ) (i : ℕ) : Bool :=
  wc.isWaterfallRect ((st.animData s).getD (2 * i) 0) ((st.animData s).getD (2 * i + 1) 0)

/-- Kind of rect `i` (`kindArr[i] != null ? kindArr[i] : -1`). -/
def kindOf (st : TLState) (s : ℤ) (i : ℕ) : ℤ :=
  (st.kindData s).getD i (-1)

/-- Indices of the water group keyed by `(isWaterfall, kind)`: the
qualifying rects (`isWaterRect && (kind < 0 || isKindEnabled)`) whose
waterfall flag and kind match, in ascending order. -/
def waterIdxs (wc : WaterClassifier) (st : TLState) (s : ℤ) (wf : Bool) (kind : ℤ) :
    List ℕ :=
  (List.range (getRS st s).count).filter fun i =>
    hasWaterAt wc st s i && (wfOf wc st s i == wf) && (kindOf st s i == kind)

/-- Group keys in first-occurrence order (JS object key insertion order). -/
def waterGroupKeys (wc : WaterClassifier) (st : TLState) (s : ℤ) : List (Bool × ℤ) :=
  ((List.range (getRS st s).count).filterMap fun i =>
    if hasWaterAt wc st s i then some (wfOf wc st s i, kindOf st s i) else none).dedup

/-- `_buildWaterTypeMesh`: attribute arrays and user data of one water mesh. -/
def buildWaterTypeMesh (st : TLState) (s : ℤ) (idxs : List ℕ)
    (texW texH tAx tAy : ℚ) (wf : Bool) (kind : ℤ) (elev : Bool) : Mesh :=
  { pos := idxs.flatMap fun i => wQuadPos st s i elev
    normal := idxs.flatMap fun _ => quadNormal
    uv := idxs.flatMap fun i => wQuadUV st s i texW texH tAx tAy
    uvBounds := idxs.flatMap fun i => wQuadBounds st s i texW texH tAx tAy
    visible := true
    isWaterMesh := true
    isWaterfall := wf
    a1Kinds := if 0 ≤ kind then [kind] else []
    texW := texW
    texH := texH }

/-- Build/replace the mesh of one `(isWaterfall, kind)` group. -/
def buildWaterStep (env : Env) (st : TLState) (texW texH tAx tAy : ℚ)
    (acc : TLState) (p : Bool × ℤ) : TLState :=
  let idxs := waterIdxs env.wc st 0 p.1 p.2
  if idxs.isEmpty then acc
  else
    { acc with
      meshes := setMesh acc.meshes (MeshKey.water 0 p.1 p.2)
        (buildWaterTypeMesh st 0 idxs texW texH tAx tAy p.1 p.2 env.mapElevation) }

/-- The water build pass of `_flush`: only a set flagged in `hasWaterBySet`
(hence only set 0) is visited; it is skipped when its bound source has no
decoded image; otherwise one mesh per `(isWaterfall, kind)` group. -/
def buildWaters (env : Env) (st : TLState) (tAx tAy : ℚ) : TLState :=
  if hasWaterSet env.wc st 0 then
    match st.bitmaps.getD 0 none with
    | none => st
    | some b =>
      if b.hasImage then
        let texW : ℚ := if b.width = 0 then 1 else (b.width : ℚ)
        let texH : ℚ := if b.height = 0 then 1 else (b.height : ℚ)
        (waterGroupKeys env.wc st 0).foldl (buildWaterStep env st texW texH tAx tAy) st
      else st
  else st

/-! ### Animation fast path (`_updateAnimUVs`) -/

/-- In-place typed-array writes `l[base+k] = vals[k]`; an out-of-bounds
typed-array write is silently dropped, as `List.set` drops it. -/
def writeMany : List ℚ → ℕ → List ℚ → List ℚ
  | l, _, [] => l
  | l, b, v :: vs => writeMany (l.set b v) (b + 1) vs

/-- UV rewrite loop of the unified mesh over the saved `_unifiedRects`. -/
def fastUnifiedUV (st : TLState) (tAx tAy : ℚ) :
    List ℚ → ℕ → List URect → List ℚ
  | acc, _, [] => acc
  | acc, ri, r :: rest =>
    fastUnifiedUV st tAx tAy (writeMany acc (12 * ri) (uQuadUV st r tAx tAy)) (ri + 1) rest

/-- The fast-path filter deciding which set-0 rects are written into a given
water mesh: water signature, matching waterfall flag, and — only when the
mesh's `a1Kinds` list is non-empty — kind membership. -/
def fastWaterQual (wc : WaterClassifier) (st : TLState) (m : Mesh) (i : ℕ) : Bool :=
  let ax := (st.animData 0).getD (2 * i) 0
  let ay := (st.animData 0).getD (2 * i + 1) 0
  wc.isWaterRect ax ay && (wc.isWaterfallRect ax ay == m.isWaterfall) &&
    (m.a1Kinds.isEmpty || m.a1Kinds.contains (kindOf st 0 i))

/-- Sequential UV / UV-bounds writes of the fast path at slots `wi, wi+1, …`
for the qualifying rect indices. -/
def fastWaterWrite (st : TLState) (texW texH tAx tAy : ℚ) :
    List ℚ × List ℚ → ℕ → List ℕ → List ℚ × List ℚ
  | acc, _, [] => acc
  | acc, wi, i :: rest =>
    fastWaterWrite st texW texH tAx tAy
      (writeMany acc.1 (12 * wi) (wQuadUV st 0 i texW texH tAx tAy),
       writeMany acc.2 (24 * wi) (wQuadBounds st 0 i texW texH tAx tAy))
      (wi + 1) rest

/-- Fast-path update of one water mesh (texture size read from its bound
texture, recorded at build time). -/
def fastWater (wc : WaterClassifier) (st : TLState) (m : Mesh) (tAx tAy : ℚ) : Mesh :=
  let qual := (List.range (getRS st 0).count).filter (fastWaterQual wc st m)
  let r := fastWaterWrite st m.texW m.texH tAx tAy (m.uv, m.uvBounds) 0 qual
  { m with uv := r.1, uvBounds := r.2 }

/-- `_updateAnimUVs`: rewrite the visible unified mesh's UV attribute from
`_unifiedRects`, then the UV/UV-bounds of every cached water mesh of set 0
(the loop skips every other set). -/
def updateAnimUVs (env : Env) (st : TLState) (tAx tAy : ℚ) : TLState :=
  let st1 :=
    match st.unifiedMesh, st.unifiedRects with
    | some m, some rects =>
      if m.visible then
        { st with unifiedMesh := some { m with uv := fastUnifiedUV st tAx tAy m.uv 0 rects } }
      else st
    | _, _ => st
  if decide ((getRS st 0).count ≠ 0) &&
      (List.range (getRS st 0).count).any (hasWaterAt env.wc st 0) then
    { st1 with
      meshes := st1.meshes.map fun p =>
        match p.1 with
        | MeshKey.water s _ _ =>
          if s = 0 then (p.1, fastWater env.wc st p.2 tAx tAy) else p
        | _ => p }
  else st1

/-! ### `_flush` -/

/-- Rebuild path of `_flush`: hide every cached mesh, classify, stable-sort,
build the shadow, unified and water meshes. -/
def hideMeshes (st : TLState) : TLState :=
  { st with
    meshes := st.meshes.map fun p => (p.1, { p.2 with visible := false })
    unifiedMesh := st.unifiedMesh.map fun m => { m with visible := false } }

/-- The full-rebuild body of `_flush`. -/
def rebuild (env : Env) (st : TLState) (tAx tAy : ℚ) : TLState :=
  let st1 := hideMeshes st
  let sorted := sortRects (allRectsOf env.wc st1)
  let st2 := buildShadow env st1
  let st3 := buildUnified env st2 sorted tAx tAy
  buildWaters env st3 tAx tAy

/-- `ThreeTilemapRectLayer.prototype._flush`. -/
def flush (env : Env) (st : TLState) : TLState :=
  let tAx := st.tileAnimX
  let tAy := st.tileAnimY
  let animChanged :=
    decide (tAx ≠ st.lastTileAnimX) || decide (tAy ≠ st.lastTileAnimY)
  let st1 := { st with tex := some (ensureTex st.bitmaps st.tex).1 }
  if !st1.needsRebuild && animChanged then
    updateAnimUVs env { st1 with lastTileAnimX := tAx, lastTileAnimY := tAy } tAx tAy
  else if !st1.needsRebuild then st1
  else
    rebuild env { st1 with needsRebuild := false, lastTileAnimX := tAx, lastTileAnimY := tAy }
      tAx tAy

/-! ### Command-level (spec-side) description of an accumulation session -/

/-- Value of the z cursor after a command list, starting from `z`. -/
def cursorAfter (z : ℤ) : List Cmd → ℤ
  | [] => z
  | Cmd.add _ :: r => cursorAfter z r
  | Cmd.setZ z2 :: r => cursorAfter z2 r

/-- The `addRect` calls of a session, each paired with the z cursor in
effect when it was issued. -/
def taggedAddsAux (z : ℤ) : List Cmd → List (AddData × ℤ)
  | [] => []
  | Cmd.add a :: r => (a, z) :: taggedAddsAux z r
  | Cmd.setZ z2 :: r => taggedAddsAux z2 r

/-- Tagged adds of a session started with cursor 0. -/
def taggedAdds (cmds : List Cmd) : List (AddData × ℤ) := taggedAddsAux 0 cmds

/-- The adds that went to set `s`, in call order. -/
def addsFor (cmds : List Cmd) (s : ℤ) : List (AddData × ℤ) :=
  (taggedAdds cmds).filter fun p => decide (p.1.set = s)

/-- Whether the session contains at least one `addRect`. -/
def hasAdd : List Cmd → Bool
  | [] => false
  | Cmd.add _ :: _ => true
  | Cmd.setZ _ :: r => hasAdd r

/-- Default tagged add (for `getD`). -/
def dPair : AddData × ℤ := (default, 0)

/-- The water test expressed on an `addRect` call's own arguments. -/
def specWater (wc : WaterClassifier) (a : AddData) : Bool :=
  wc.isWaterRect (a.animX.getD 0) (a.animY.getD 0) &&
    (decide (a.kind.getD (-1) < 0) || wc.isKindEnabled (a.kind.getD (-1)))

/-- Expected classified contribution of set `s`, computed from the session
alone: each add becomes `{setNumber, index, drawZ}` unless it is a set-0 add
that the classifier marks as water. -/
def specSetList (wc : WaterClassifier) (cmds : List Cmd) (s : ℤ) : List URect :=
  (List.range (addsFor cmds s).length).filterMap fun i =>
    let p := (addsFor cmds s).getD i dPair
    if s = 0 && specWater wc p.1 then none else some ⟨s, i, p.2⟩

/-- The expected pre-sort unified list, per set in key order. -/
def specUnified (wc : WaterClassifier) (cmds : List Cmd) : List URect :=
  unifiedKeys.flatMap (specSetList wc cmds)

/-- Expected 18 shadow position entries of one set −1 add. -/
def specShadowQuad (p : AddData × ℤ) (elev : Bool) : List ℚ :=
  let z := zOffsetOf elev p.2
  [p.1.x, p.1.y, z, p.1.x + p.1.w, p.1.y, z, p.1.x, p.1.y + p.1.h, z,
   p.1.x + p.1.w, p.1.y, z, p.1.x + p.1.w, p.1.y + p.1.h, z,
   p.1.x, p.1.y + p.1.h, z]

/-- Expected shadow position buffer, computed from the session alone. -/
def specShadowPos (cmds : List Cmd) (elev : Bool) : List ℚ :=
  (List.range (addsFor cmds (-1)).length).flatMap fun i =>
    specShadowQuad ((addsFor cmds (-1)).getD i dPair) elev

/-! ### List access helper lemmas -/

lemma flatMap_getD_chunk {α : Type} (f : α → List ℚ) (k : ℕ)
    (hk : ∀ x, (f x).length = k) (x0 : α) :
    ∀ (l : List α) (i j : ℕ), i < l.length → j < k →
      (l.flatMap f).getD (k * i + j) 0 = (f (l.getD i x0)).getD j 0 := by
  intro l
  induction l with
  | nil => intro i j hi _; simp at hi
  | cons a t ih =>
    intro i j hi hj
    rw [List.flatMap_cons]
    cases i with
    | zero =>
      have hj2 : j < (f a).length := by rw [hk a]; exact hj
      simpa using List.getD_append (f a) (t.flatMap f) 0 (k * 0 + j) (by simpa using hj2)
    | succ i =>
      have hlen : (f a).length ≤ k * (i + 1) + j := by
        rw [hk a]; nlinarith
      rw [List.getD_append_right (f a) (t.flatMap f) 0 _ hlen, hk a]
      have harith : k * (i + 1) + j - k = k * i + j := by ring_nf; omega
      rw [harith]
      exact ih i j (Nat.lt_of_succ_lt_succ hi) hj

lemma getD_map_lt {α β : Type} (f : α → β) (d : β) (d0 : α) :
    ∀ (l : List α) (i : ℕ), i < l.length → (l.map f).getD i d = f (l.getD i d0) := by
  intro l
  induction l with
  | nil => intro i hi; simp at hi
  | cons a t ih =>
    intro i hi
    cases i with
    | zero => rfl
    | succ i => exact ih i (Nat.lt_of_succ_lt_succ hi)

lemma writeBlock_getD_in (f : ℕ → ℚ) (base : ℕ) (vals : List ℚ) (j : ℕ)
    (h : j < vals.length) : writeBlock f base vals (base + j) = vals.getD j 0 := by
  simp only [writeBlock]
  rw [if_pos ⟨Nat.le_add_right _ _, by omega⟩]
  congr 1
  omega

lemma writeBlock_out (f : ℕ → ℚ) (base : ℕ) (vals : List ℚ) (i : ℕ)
    (h : i < base ∨ base + vals.length ≤ i) : writeBlock f base vals i = f i := by
  simp only [writeBlock]
  rw [if_neg]
  omega

lemma grow_positions_lt (d : RectSet) (i : ℕ) (h : i < d.capacity * 12) :
    (grow d).positions i = d.positions i := by
  simp [grow, h]

lemma grow_uvs_lt (d : RectSet) (i : ℕ) (h : i < d.capacity * 12) :
    (grow d).uvs i = d.uvs i := by
  simp [grow, h]

/-! ### Stability of the drawZ sort -/

lemma filter_orderedInsert (z : ℤ) (r : URect) (l : List URect) :
    (List.orderedInsert leZ r l).filter (fun x => decide (x.drawZ = z)) =
      if r.drawZ = z then r :: l.filter (fun x => decide (x.drawZ = z))
      else l.filter (fun x => decide (x.drawZ = z)) := by
  induction l with
  | nil =>
    by_cases hr : r.drawZ = z <;> simp [List.orderedInsert, hr]
  | cons x xs ih =>
    by_cases hle : leZ r x
    · rw [List.orderedInsert, if_pos hle]
      by_cases hr : r.drawZ = z <;> simp [hr]
    · rw [List.orderedInsert, if_neg hle]
      have hxlt : x.drawZ < r.drawZ := lt_of_not_le hle
      by_cases hr : r.drawZ = z
      · have hx : ¬ x.drawZ = z := by omega
        simp [hx, ih, hr]
      · by_cases hx : x.drawZ = z <;> simp [hx, ih, hr]

lemma sortRects_filter_drawZ (l : List URect) (z : ℤ) :
    (sortRects l).filter (fun x => decide (x.drawZ = z)) =
      l.filter (fun x => decide (x.drawZ = z)) := by
  induction l with
  | nil => rfl
  | cons a t ih =>
    show (List.orderedInsert leZ a (List.insertionSort leZ t)).filter _ = _
    rw [filter_orderedInsert]
    by_cases ha : a.drawZ = z
    · simp [ha, sortRects] at ih ⊢
      rw [ih]
    · simp [ha, sortRects] at ih ⊢
      rw [ih]

lemma mem_sortRects (l : List URect) (r : URect) : r ∈ sortRects l ↔ r ∈ l :=
  (List.perm_insertionSort leZ l).mem_iff

/-! ### Idempotence of the texture scan -/

/-- Layer `i` is up to date: a ready bound source is recorded as loaded with
the current version, so the scan skips it. -/
def skipHolds (bm : List (Option Bitmap)) (t : TexState) (i : ℕ) : Prop :=
  readyBM bm i = true → (t.loaded i = true ∧ t.versions i = versionBM bm i)

lemma readyBM_none (bm : List (Option Bitmap)) (i : ℕ) (h : bm.getD i none = none) :
    readyBM bm i = false := by
  unfold readyBM
  rw [h]

lemma readyBM_some (bm : List (Option Bitmap)) (i : ℕ) (b : Bitmap)
    (h : bm.getD i none = some b) :
    readyBM bm i = (b.hasImage && decide (0 < b.width) && decide (0 < b.height)) := by
  unfold readyBM
  rw [h]

lemma versionBM_some (bm : List (Option Bitmap)) (i : ℕ) (b : Bitmap)
    (h : bm.getD i none = some b) : versionBM bm i = b.version := by
  unfold versionBM
  rw [h]

lemma scanOne_skip_of_holds (bm : List (Option Bitmap)) (t : TexState) (i : ℕ)
    (h : skipHolds bm t i) : scanOne bm t i = (t, false) := by
  unfold scanOne
  cases hbm : bm.getD i none with
  | none => rfl
  | some b =>
    unfold skipHolds at h
    rw [readyBM_some bm i b hbm, versionBM_some bm i b hbm] at h
    by_cases hr : (b.hasImage && decide (0 < b.width) && decide (0 < b.height)) = true
    · obtain ⟨h1, h2⟩ := h hr
      simp [hr, h1, h2]
    · simp [hr]

lemma scanOne_preserves_holds (bm : List (Option Bitmap)) (t : TexState) (k i : ℕ)
    (h : skipHolds bm t i) : skipHolds bm (scanOne bm t k).1 i := by
  by_cases hik : i = k
  · subst hik
    rw [scanOne_skip_of_holds bm t i h]
    exact h
  · unfold scanOne
    cases bm.getD k none with
    | none => exact h
    | some b =>
      by_cases hr : (b.hasImage && decide (0 < b.width) && decide (0 < b.height)) = true
      · by_cases hl : (t.loaded k && decide (t.versions k = b.version)) = true
        · simp only [hr, if_true, hl]
          exact h
        · simp only [hr, if_true, hl, if_false]
          intro hready
          obtain ⟨h1, h2⟩ := h hready
          refine ⟨?_, ?_⟩
          · simpa [copyLayer, hik] using h1
          · simpa [copyLayer, hik] using h2
      · simp only [hr, if_false]
        exact h

lemma scanOne_establishes (bm : List (Option Bitmap)) (t : TexState) (i : ℕ) :
    skipHolds bm (scanOne bm t i).1 i := by
  unfold skipHolds scanOne
  cases hbm : bm.getD i none with
  | none =>
    rw [readyBM_none bm i hbm]
    intro hready
    exact absurd hready (by simp)
  | some b =>
    rw [readyBM_some bm i b hbm, versionBM_some bm i b hbm]
    by_cases hr : (b.hasImage && decide (0 < b.width) && decide (0 < b.height)) = true
    · by_cases hl : (t.loaded i && decide (t.versions i = b.version)) = true
      · simp only [hr, hl, if_true]
        intro _
        simp only [Bool.and_eq_true, decide_eq_true_eq] at hl
        exact ⟨hl.1, hl.2⟩
      · simp only [hr, if_true, hl, if_false]
        intro _
        constructor
        · simp [copyLayer]
        · simp [copyLayer]
    · intro hready
      exact absurd hready hr

lemma scanList_preserves_holds (bm : List (Option Bitmap)) :
    ∀ (L : List ℕ) (t : TexState) (c i : ℕ),
      skipHolds bm t i → skipHolds bm (scanList bm t c L).1 i := by
  intro L
  induction L with
  | nil => intro t c i h; exact h
  | cons j rest ih =>
    intro t c i h
    exact ih _ _ i (scanOne_preserves_holds bm t j i h)

lemma scanList_holds (bm : List (Option Bitmap)) :
    ∀ (L : List ℕ) (t : TexState) (c i : ℕ), i ∈ L →
      skipHolds bm (scanList bm t c L).1 i := by
  intro L
  induction L with
  | nil => intro t c i h; simp at h
  | cons j rest ih =>
    intro t c i h
    rcases List.mem_cons.mp h with h1 | h2
    · subst h1
      exact scanList_preserves_holds bm rest _ _ i (scanOne_establishes bm t i)
    · exact ih _ _ i h2

lemma scanList_skip_all (bm : List (Option Bitmap)) :
    ∀ (L : List ℕ) (t : TexState) (c : ℕ), (∀ i ∈ L, skipHolds bm t i) →
      scanList bm t c L = (t, c) := by
  intro L
  induction L with
  | nil => intro t c _; rfl
  | cons j rest ih =>
    intro t c h
    show scanList bm (scanOne bm t j).1 _ rest = _
    rw [scanOne_skip_of_holds bm t j (h j (List.mem_cons_self j rest))]
    exact ih t c fun i hi => h i (List.mem_cons_of_mem j hi)

lemma skipHolds_dirty (bm : List (Option Bitmap)) (t : TexState) (d : Bool) (i : ℕ)
    (h : skipHolds bm t i) : skipHolds bm { t with dirty := d } i := h

lemma ensureTex_idem (bm : List (Option Bitmap)) (t0 : Option TexState) :
    ensureTex bm (some (ensureTex bm t0).1) = ((ensureTex bm t0).1, 0) := by
  unfold ensureTex
  set t := t0.getD newTexState with ht
  set r := scanList bm t 0 (List.range layerCount) with hr
  have hall : ∀ i ∈ List.range layerCount,
      skipHolds bm { r.1 with dirty := if r.2 ≠ 0 then true else r.1.dirty } i := by
    intro i hi
    exact skipHolds_dirty bm r.1 _ i (scanList_holds bm _ t 0 i hi)
  simp only [Option.getD_some]
  rw [scanList_skip_all bm _ _ 0 hall]
  simp

/-! ### Scalar state preserved by the build passes -/

/-- The non-geometry fields of the state that the build passes never touch. -/
def coreFields (st : TLState) :
    Bool × ℚ × ℚ × ℚ × ℚ × List (Option Bitmap) × Option TexState :=
  (st.needsRebuild, st.tileAnimX, st.tileAnimY, st.lastTileAnimX, st.lastTileAnimY,
   st.bitmaps, st.tex)

lemma coreFields_hideMeshes (st : TLState) : coreFields (hideMeshes st) = coreFields st := rfl

lemma coreFields_buildShadow (env : Env) (st : TLState) :
    coreFields (buildShadow env st) = coreFields st := by
  unfold buildShadow
  dsimp only
  split <;> rfl

lemma coreFields_buildUnified (env : Env) (st : TLState) (sorted : List URect)
    (tAx tAy : ℚ) : coreFields (buildUnified env st sorted tAx tAy) = coreFields st := by
  unfold buildUnified
  split <;> rfl

lemma coreFields_buildWaterStep (env : Env) (st : TLState) (texW texH tAx tAy : ℚ)
    (acc : TLState) (p : Bool × ℤ) :
    coreFields (buildWaterStep env st texW texH tAx tAy acc p) = coreFields acc := by
  unfold buildWaterStep
  dsimp only
  split <;> rfl

lemma coreFields_buildWaterFold (env : Env) (st : TLState) (texW texH tAx tAy : ℚ) :
    ∀ (L : List (Bool × ℤ)) (acc : TLState),
      coreFields (L.foldl (buildWaterStep env st texW texH tAx tAy) acc) =
        coreFields acc := by
  intro L
  induction L with
  | nil => intro acc; rfl
  | cons p rest ih =>
    intro acc
    rw [List.foldl_cons, ih, coreFields_buildWaterStep]

lemma coreFields_buildWaters (env : Env) (st : TLState) (tAx tAy : ℚ) :
    coreFields (buildWaters env st tAx tAy) = coreFields st := by
  unfold buildWaters
  split
  · split
    · rfl
    · split
      · rw [coreFields_buildWaterFold]
      · rfl
  · rfl

lemma coreFields_rebuild (env : Env) (st : TLState) (tAx tAy : ℚ) :
    coreFields (rebuild env st tAx tAy) = coreFields st := by
  unfold rebuild
  rw [coreFields_buildWaters, coreFields_buildUnified, coreFields_buildShadow,
    coreFields_hideMeshes]

lemma coreFields_updateAnimUVs (env : Env) (st : TLState) (tAx tAy : ℚ) :
    coreFields (updateAnimUVs env st tAx tAy) = coreFields st := by
  unfold updateAnimUVs
  dsimp only
  split
  · split <;> try split
    all_goals rfl
  · split <;> try split
    all_goals rfl

/-- After any `_flush`: the dirty flag is clear, the animation phase is
recorded, bitmaps are untouched, and the array texture is the scanned one. -/
lemma flush_core (env : Env) (st : TLState) :
    (flush env st).needsRebuild = false ∧
    (flush env st).tileAnimX = st.tileAnimX ∧
    (flush env st).tileAnimY = st.tileAnimY ∧
    (flush env st).lastTileAnimX = st.tileAnimX ∧
    (flush env st).lastTileAnimY = st.tileAnimY ∧
    (flush env st).bitmaps = st.bitmaps ∧
    (flush env st).tex = some (ensureTex st.bitmaps st.tex).1 := by
  unfold flush
  cases hnr : st.needsRebuild with
  | true =>
    simp only [hnr, Bool.not_true, Bool.false_and, Bool.false_eq_true, if_false]
    have hc := coreFields_rebuild env
      { st with
        tex := some (ensureTex st.bitmaps st.tex).1
        needsRebuild := false
        lastTileAnimX := st.tileAnimX
        lastTileAnimY := st.tileAnimY }
      st.tileAnimX st.tileAnimY
    exact ⟨congrArg (fun q => q.1) hc, congrArg (fun q => q.2.1) hc,
      congrArg (fun q => q.2.2.1) hc, congrArg (fun q => q.2.2.2.1) hc,
      congrArg (fun q => q.2.2.2.2.1) hc, congrArg (fun q => q.2.2.2.2.2.1) hc,
      congrArg (fun q => q.2.2.2.2.2.2) hc⟩
  | false =>
    simp only [hnr, Bool.not_false, Bool.true_and, Bool.true_eq_false]
    by_cases hch :
        (decide (st.tileAnimX ≠ st.lastTileAnimX) || decide (st.tileAnimY ≠ st.lastTileAnimY)) = true
    · simp only [hch, if_true]
      have hc := coreFields_updateAnimUVs env
        { st with
          tex := some (ensureTex st.bitmaps st.tex).1
          lastTileAnimX := st.tileAnimX
          lastTileAnimY := st.tileAnimY }
        st.tileAnimX st.tileAnimY
      simp only [hnr] at hc
      exact ⟨congrArg (fun q => q.1) hc, congrArg (fun q => q.2.1) hc,
        congrArg (fun q => q.2.2.1) hc, congrArg (fun q => q.2.2.2.1) hc,
        congrArg (fun q => q.2.2.2.2.1) hc, congrArg (fun q => q.2.2.2.2.2.1) hc,
        congrArg (fun q => q.2.2.2.2.2.2) hc⟩
    · simp only [hch, if_false]
      simp only [Bool.or_eq_true, decide_eq_true_eq, not_or, Decidable.not_not] at hch
      exact ⟨rfl, rfl, rfl, hch.1.symm, hch.2.symm, rfl, rfl⟩

/-- C9: `flush()` is idempotent with no intervening mutation: a second
`_flush` finds the dirty flag clear and the animation phase unchanged, so
it leaves the whole state — built geometry, visibility and accumulated
buffers — exactly as the first call produced it. -/
theorem c9_flush_idempotent (env : Env) (st : TLState) :
    flush env (flush env st) = flush env st := by
  obtain ⟨h1, h2, h3, h4, h5, h6, h7⟩ := flush_core env st
  generalize hF : flush env st = sF at h1 h2 h3 h4 h5 h6 h7 ⊢
  have hch : (decide (sF.tileAnimX ≠ sF.lastTileAnimX) ||
      decide (sF.tileAnimY ≠ sF.lastTileAnimY)) = false := by
    rw [h2, h3, h4, h5]
    simp
  unfold flush
  simp only [h1, hch, Bool.not_false, Bool.true_and, Bool.and_false, Bool.false_eq_true,
    if_false, if_true, Bool.true_eq_false]
  have hTex : some (ensureTex sF.bitmaps sF.tex).1 = sF.tex := by
    rw [h6, h7, ensureTex_idem]
  rw [hTex, ← h1]

/-! ### `bumpRS` and `addRect` access lemmas -/

lemma posVals_length (a : AddData) : (posVals a).length = 12 := rfl

lemma uvVals_length (a : AddData) : (uvVals a).length = 12 := rfl

lemma bumpRS_count (d0 : RectSet) (a : AddData) : (bumpRS d0 a).count = d0.count + 1 := by
  unfold bumpRS
  dsimp only
  split <;> rfl

lemma bumpRS_capacity (d0 : RectSet) (a : AddData) :
    (bumpRS d0 a).capacity =
      if d0.capacity ≤ d0.count then d0.capacity * 2 else d0.capacity := by
  unfold bumpRS
  dsimp only
  split <;> rfl

lemma bumpRS_positions_old (d0 : RectSet) (a : AddData) (hwf : d0.count ≤ d0.capacity)
    (i : ℕ) (hi : i < d0.count * 12) : (bumpRS d0 a).positions i = d0.positions i := by
  unfold bumpRS
  dsimp only
  by_cases hg : d0.capacity ≤ d0.count
  · rw [if_pos hg]
    have hc : (grow d0).count = d0.count := rfl
    rw [writeBlock_out _ _ _ _ (Or.inl (by rw [hc]; omega))]
    exact grow_positions_lt d0 i (by nlinarith)
  · rw [if_neg hg]
    exact writeBlock_out _ _ _ _ (Or.inl (by omega))

lemma bumpRS_uvs_old (d0 : RectSet) (a : AddData) (hwf : d0.count ≤ d0.capacity)
    (i : ℕ) (hi : i < d0.count * 12) : (bumpRS d0 a).uvs i = d0.uvs i := by
  unfold bumpRS
  dsimp only
  by_cases hg : d0.capacity ≤ d0.count
  · rw [if_pos hg]
    have hc : (grow d0).count = d0.count := rfl
    rw [writeBlock_out _ _ _ _ (Or.inl (by rw [hc]; omega))]
    exact grow_uvs_lt d0 i (by nlinarith)
  · rw [if_neg hg]
    exact writeBlock_out _ _ _ _ (Or.inl (by omega))

lemma bumpRS_positions_new (d0 : RectSet) (a : AddData) (j : ℕ) (hj : j < 12) :
    (bumpRS d0 a).positions (d0.count * 12 + j) = (posVals a).getD j 0 := by
  unfold bumpRS
  dsimp only
  by_cases hg : d0.capacity ≤ d0.count
  · rw [if_pos hg]
    have hc : (grow d0).count = d0.count := rfl
    rw [hc]
    exact writeBlock_getD_in _ _ _ j (by rw [posVals_length]; omega)
  · rw [if_neg hg]
    exact writeBlock_getD_in _ _ _ j (by rw [posVals_length]; omega)

lemma bumpRS_uvs_new (d0 : RectSet) (a : AddData) (j : ℕ) (hj : j < 12) :
    (bumpRS d0 a).uvs (d0.count * 12 + j) = (uvVals a).getD j 0 := by
  unfold bumpRS
  dsimp only
  by_cases hg : d0.capacity ≤ d0.count
  · rw [if_pos hg]
    have hc : (grow d0).count = d0.count := rfl
    rw [hc]
    exact writeBlock_getD_in _ _ _ j (by rw [uvVals_length]; omega)
  · rw [if_neg hg]
    exact writeBlock_getD_in _ _ _ j (by rw [uvVals_length]; omega)

lemma getRS_addRect_self (st : TLState) (a : AddData) :
    getRS (addRectFn st a) a.set = bumpRS (getRS st a.set) a := by
  simp [addRectFn, getRS]

lemma getRS_addRect_other (st : TLState) (a : AddData) (s : ℤ) (hs : s ≠ a.set) :
    getRS (addRectFn st a) s = getRS st s := by
  simp [addRectFn, getRS, hs]

lemma animData_addRect_self (st : TLState) (a : AddData) :
    (addRectFn st a).animData a.set =
      st.animData a.set ++ [a.animX.getD 0, a.animY.getD 0] := by
  simp [addRectFn]

lemma animData_addRect_other (st : TLState) (a : AddData) (s : ℤ) (hs : s ≠ a.set) :
    (addRectFn st a).animData s = st.animData s := by
  simp [addRectFn, hs]

lemma kindData_addRect_self (st : TLState) (a : AddData) :
    (addRectFn st a).kindData a.set = st.kindData a.set ++ [a.kind.getD (-1)] := by
  simp [addRectFn]

lemma kindData_addRect_other (st : TLState) (a : AddData) (s : ℤ) (hs : s ≠ a.set) :
    (addRectFn st a).kindData s = st.kindData s := by
  simp [addRectFn, hs]

lemma drawZData_addRect_self (st : TLState) (a : AddData) :
    (addRectFn st a).drawZData a.set = st.drawZData a.set ++ [st.currentDrawZ] := by
  simp [addRectFn]

lemma drawZData_addRect_other (st : TLState) (a : AddData) (s : ℤ) (hs : s ≠ a.set) :
    (addRectFn st a).drawZData s = st.drawZData s := by
  simp [addRectFn, hs]

lemma currentDrawZ_addRect (st : TLState) (a : AddData) :
    (addRectFn st a).currentDrawZ = st.currentDrawZ := rfl

/-! ### Session bookkeeping lemmas -/

lemma cursorAfter_append (z : ℤ) (l1 l2 : List Cmd) :
    cursorAfter z (l1 ++ l2) = cursorAfter (cursorAfter z l1) l2 := by
  induction l1 generalizing z with
  | nil => rfl
  | cons c r ih =>
    cases c with
    | add a => simp [cursorAfter, ih]
    | setZ z2 => simp [cursorAfter, ih]

lemma taggedAddsAux_append (z : ℤ) (l1 l2 : List Cmd) :
    taggedAddsAux z (l1 ++ l2) =
      taggedAddsAux z l1 ++ taggedAddsAux (cursorAfter z l1) l2 := by
  induction l1 generalizing z with
  | nil => rfl
  | cons c r ih =>
    cases c with
    | add a => simp [taggedAddsAux, cursorAfter, ih]
    | setZ z2 => simp [taggedAddsAux, cursorAfter, ih]

lemma addsFor_snoc_add (cmds : List Cmd) (a : AddData) (s : ℤ) :
    addsFor (cmds ++ [Cmd.add a]) s =
      addsFor cmds s ++ (if a.set = s then [(a, cursorAfter 0 cmds)] else []) := by
  unfold addsFor taggedAdds
  rw [taggedAddsAux_append, List.filter_append]
  congr 1
  by_cases h : a.set = s
  · simp [taggedAddsAux, h]
  · simp [taggedAddsAux, h]

lemma addsFor_snoc_setZ (cmds : List Cmd) (z : ℤ) (s : ℤ) :
    addsFor (cmds ++ [Cmd.setZ z]) s = addsFor cmds s := by
  unfold addsFor taggedAdds
  rw [taggedAddsAux_append]
  simp [taggedAddsAux]

lemma applyCmds_append (st : TLState) (l1 l2 : List Cmd) :
    applyCmds st (l1 ++ l2) = applyCmds (applyCmds st l1) l2 := by
  induction l1 generalizing st with
  | nil => rfl
  | cons c r ih => exact ih (applyCmd st c)

/-! ### The state encodes the session -/

/-- The per-set stores of `st` hold exactly the data of the tagged adds
`adds` that went to set `s`. -/
structure EncSet (st : TLState) (adds : List (AddData × ℤ)) (s : ℤ) : Prop where
  count_eq : (getRS st s).count = adds.length
  le_cap : adds.length ≤ (getRS st s).capacity
  cap_pos : 0 < (getRS st s).capacity
  anim_eq : st.animData s = adds.flatMap fun p => [p.1.animX.getD 0, p.1.animY.getD 0]
  kind_eq : st.kindData s = adds.map fun p => p.1.kind.getD (-1)
  drawZ_eq : st.drawZData s = adds.map fun p => p.2
  pos_eq : ∀ i j, i < adds.length → j < 12 →
    (getRS st s).positions (12 * i + j) = (posVals (adds.getD i dPair).1).getD j 0
  uv_eq : ∀ i j, i < adds.length → j < 12 →
    (getRS st s).uvs (12 * i + j) = (uvVals (adds.getD i dPair).1).getD j 0

/-- The full encoding invariant of a session replay. -/
def EncOK (cmds : List Cmd) (st : TLState) : Prop :=
  st.currentDrawZ = cursorAfter 0 cmds ∧ ∀ s : ℤ, EncSet st (addsFor cmds s) s

lemma encOK_nil : EncOK [] initState := by
  constructor
  · rfl
  · intro s
    exact
      { count_eq := rfl
        le_cap := by norm_num [addsFor, taggedAdds, taggedAddsAux, getRS, initState, freshRectSet]
        cap_pos := by norm_num [getRS, initState, freshRectSet]
        anim_eq := rfl
        kind_eq := rfl
        drawZ_eq := rfl
        pos_eq := by intro i j hi hj; simp [addsFor, taggedAdds, taggedAddsAux] at hi
        uv_eq := by intro i j hi hj; simp [addsFor, taggedAdds, taggedAddsAux] at hi }

lemma encStep_setZ (cmds : List Cmd) (st : TLState) (z : ℤ) (h : EncOK cmds st) :
    EncOK (cmds ++ [Cmd.setZ z]) (setDrawZFn st z) := by
  obtain ⟨hcur, hsets⟩ := h
  constructor
  · rw [cursorAfter_append]
    rfl
  · intro s
    rw [addsFor_snoc_setZ]
    have he := hsets s
    exact
      { count_eq := he.count_eq, le_cap := he.le_cap, cap_pos := he.cap_pos
        anim_eq := he.anim_eq, kind_eq := he.kind_eq, drawZ_eq := he.drawZ_eq
        pos_eq := he.pos_eq, uv_eq := he.uv_eq }

lemma encStep_add (cmds : List Cmd) (st : TLState) (a : AddData) (h : EncOK cmds st) :
    EncOK (cmds ++ [Cmd.add a]) (addRectFn st a) := by
  obtain ⟨hcur, hsets⟩ := h
  refine ⟨?_, ?_⟩
  · rw [currentDrawZ_addRect, cursorAfter_append]
    exact hcur
  · intro s
    rw [addsFor_snoc_add]
    by_cases hs : a.set = s
    · subst hs
      rw [if_pos rfl]
      have he := hsets a.set
      have hwf : (getRS st a.set).count ≤ (getRS st a.set).capacity := by
        rw [he.count_eq]
        exact he.le_cap
      have hlen : ((addsFor cmds a.set) ++ [(a, cursorAfter 0 cmds)]).length =
          (addsFor cmds a.set).length + 1 := by simp
      refine
        { count_eq := ?_, le_cap := ?_, cap_pos := ?_, anim_eq := ?_, kind_eq := ?_
          drawZ_eq := ?_, pos_eq := ?_, uv_eq := ?_ }
      · rw [getRS_addRect_self, bumpRS_count, he.count_eq, hlen]
      · rw [getRS_addRect_self, bumpRS_capacity, hlen]
        by_cases hg : (getRS st a.set).capacity ≤ (getRS st a.set).count
        · rw [if_pos hg]
          have h1 := he.count_eq
          have h2 := he.le_cap
          have h3 := he.cap_pos
          omega
        · rw [if_neg hg]
          have h1 := he.count_eq
          omega
      · rw [getRS_addRect_self, bumpRS_capacity]
        have h3 := he.cap_pos
        by_cases hg : (getRS st a.set).capacity ≤ (getRS st a.set).count
        · rw [if_pos hg]; omega
        · rw [if_neg hg]; omega
      · rw [animData_addRect_self, he.anim_eq, List.flatMap_append]
        rfl
      · rw [kindData_addRect_self, he.kind_eq, List.map_append]
        rfl
      · rw [drawZData_addRect_self, he.drawZ_eq, List.map_append, hcur]
        rfl
      · intro i j hi hj
        rw [getRS_addRect_self]
        rw [hlen] at hi
        rcases Nat.lt_or_ge i (addsFor cmds a.set).length with hil | hig
        · have hidx : 12 * i + j < (getRS st a.set).count * 12 := by
            rw [he.count_eq]
            omega
          rw [bumpRS_positions_old _ a hwf _ hidx, he.pos_eq i j hil hj,
            List.getD_append _ _ _ _ hil]
        · have hie : i = (addsFor cmds a.set).length := by omega
          subst hie
          have hidx : 12 * (addsFor cmds a.set).length + j =
              (getRS st a.set).count * 12 + j := by
            rw [he.count_eq]
            ring
          rw [hidx, bumpRS_positions_new _ a j hj,
            List.getD_append_right _ _ _ _ (le_refl _)]
          simp
      · intro i j hi hj
        rw [getRS_addRect_self]
        rw [hlen] at hi
        rcases Nat.lt_or_ge i (addsFor cmds a.set).length with hil | hig
        · have hidx : 12 * i + j < (getRS st a.set).count * 12 := by
            rw [he.count_eq]
            omega
          rw [bumpRS_uvs_old _ a hwf _ hidx, he.uv_eq i j hil hj,
            List.getD_append _ _ _ _ hil]
        · have hie : i = (addsFor cmds a.set).length := by omega
          subst hie
          have hidx : 12 * (addsFor cmds a.set).length + j =
              (getRS st a.set).count * 12 + j := by
            rw [he.count_eq]
            ring
          rw [hidx, bumpRS_uvs_new _ a j hj,
            List.getD_append_right _ _ _ _ (le_refl _)]
          simp
    · rw [if_neg hs, List.append_nil]
      have he := hsets s
      have hs2 : s ≠ a.set := fun he2 => hs he2.symm
      exact
        { count_eq := by rw [getRS_addRect_other st a s hs2]; exact he.count_eq
          le_cap := by rw [getRS_addRect_other st a s hs2]; exact he.le_cap
          cap_pos := by rw [getRS_addRect_other st a s hs2]; exact he.cap_pos
          anim_eq := by rw [animData_addRect_other st a s hs2]; exact he.anim_eq
          kind_eq := by rw [kindData_addRect_other st a s hs2]; exact he.kind_eq
          drawZ_eq := by rw [drawZData_addRect_other st a s hs2]; exact he.drawZ_eq
          pos_eq := by
            intro i j hi hj
            rw [getRS_addRect_other st a s hs2]
            exact he.pos_eq i j hi hj
          uv_eq := by
            intro i j hi hj
            rw [getRS_addRect_other st a s hs2]
            exact he.uv_eq i j hi hj }

/-- Replaying any session from a fresh layer yields a state that encodes it. -/
lemma encOK_replay (cmds : List Cmd) : EncOK cmds (applyCmds initState cmds) := by
  induction cmds using List.reverseRecOn with
  | nil => exact encOK_nil
  | append_singleton l c ih =>
    rw [applyCmds_append]
    cases c with
    | add a => exact encStep_add l _ a ih
    | setZ z => exact encStep_setZ l _ z ih

/-! ### Classification agreement with the session description -/

lemma flatMap_congr {α β : Type} (l : List α) (f g : α → List β)
    (h : ∀ a ∈ l, f a = g a) : l.flatMap f = l.flatMap g := by
  induction l with
  | nil => rfl
  | cons a t ih =>
    rw [List.flatMap_cons, List.flatMap_cons, h a (List.mem_cons_self a t),
      ih fun x hx => h x (List.mem_cons_of_mem a hx)]

lemma animData_getD_enc (st : TLState) (adds : List (AddData × ℤ)) (s : ℤ)
    (h : EncSet st adds s) (i : ℕ) (hi : i < adds.length) :
    (st.animData s).getD (2 * i) 0 = ((adds.getD i dPair).1.animX.getD 0) ∧
    (st.animData s).getD (2 * i + 1) 0 = ((adds.getD i dPair).1.animY.getD 0) := by
  rw [h.anim_eq]
  have h0 := flatMap_getD_chunk (fun p => [p.1.animX.getD 0, p.1.animY.getD 0]) 2
    (fun _ => rfl) dPair adds i 0 hi (by omega)
  have h1 := flatMap_getD_chunk (fun p => [p.1.animX.getD 0, p.1.animY.getD 0]) 2
    (fun _ => rfl) dPair adds i 1 hi (by omega)
  constructor
  · simpa using h0
  · simpa using h1

lemma kindData_getD_enc (st : TLState) (adds : List (AddData × ℤ)) (s : ℤ)
    (h : EncSet st adds s) (i : ℕ) (hi : i < adds.length) :
    (st.kindData s).getD i (-1) = (adds.getD i dPair).1.kind.getD (-1) := by
  rw [h.kind_eq]
  exact getD_map_lt _ _ dPair adds i hi

lemma drawZData_getD_enc (st : TLState) (adds : List (AddData × ℤ)) (s : ℤ)
    (h : EncSet st adds s) (i : ℕ) (hi : i < adds.length) :
    (st.drawZData s).getD i 0 = (adds.getD i dPair).2 := by
  rw [h.drawZ_eq]
  exact getD_map_lt _ _ dPair adds i hi

lemma hasWaterAt_enc (wc : WaterClassifier) (st : TLState) (cmds : List Cmd) (s : ℤ)
    (h : EncSet st (addsFor cmds s) s) (i : ℕ) (hi : i < (addsFor cmds s).length) :
    hasWaterAt wc st s i = specWater wc ((addsFor cmds s).getD i dPair).1 := by
  obtain ⟨hx, hy⟩ := animData_getD_enc st (addsFor cmds s) s h i hi
  have hk := kindData_getD_enc st (addsFor cmds s) s h i hi
  unfold hasWaterAt specWater
  rw [hx, hy, hk]

lemma classifySet_enc (wc : WaterClassifier) (cmds : List Cmd) (st : TLState) (s : ℤ)
    (h : EncOK cmds st) : classifySet wc st s = specSetList wc cmds s := by
  obtain ⟨hcur, hsets⟩ := h
  have he := hsets s
  unfold classifySet specSetList
  rw [he.count_eq]
  apply List.filterMap_congr
  intro i hi
  have hi2 : i < (addsFor cmds s).length := List.mem_range.mp hi
  rw [hasWaterAt_enc wc st cmds s he i hi2,
    drawZData_getD_enc st (addsFor cmds s) s he i hi2]

lemma allRects_enc (wc : WaterClassifier) (cmds : List Cmd) (st : TLState)
    (h : EncOK cmds st) : allRectsOf wc st = specUnified wc cmds := by
  unfold allRectsOf specUnified
  exact flatMap_congr _ _ _ fun s _ => classifySet_enc wc cmds st s h

lemma shadowPos_enc (cmds : List Cmd) (st : TLState) (elev : Bool)
    (h : EncOK cmds st) : shadowPosArray st elev = specShadowPos cmds elev := by
  obtain ⟨hcur, hsets⟩ := h
  have he := hsets (-1)
  unfold shadowPosArray specShadowPos
  rw [he.count_eq]
  apply flatMap_congr
  intro i hi
  have hi2 : i < (addsFor cmds (-1)).length := List.mem_range.mp hi
  have hp := he.pos_eq i
  have e0 : (getRS st (-1)).positions (12 * i) =
      (posVals ((addsFor cmds (-1)).getD i dPair).1).getD 0 0 := by
    simpa using hp 0 hi2 (by norm_num)
  have e1 := hp 1 hi2 (by norm_num)
  have e2 := hp 2 hi2 (by norm_num)
  have e3 := hp 3 hi2 (by norm_num)
  have e4 := hp 4 hi2 (by norm_num)
  have e5 := hp 5 hi2 (by norm_num)
  have e6 := hp 6 hi2 (by norm_num)
  have e7 := hp 7 hi2 (by norm_num)
  have e8 := hp 8 hi2 (by norm_num)
  have e9 := hp 9 hi2 (by norm_num)
  have e10 := hp 10 hi2 (by norm_num)
  have e11 := hp 11 hi2 (by norm_num)
  unfold shQuadPos specShadowQuad
  rw [drawZData_getD_enc st (addsFor cmds (-1)) (-1) he i hi2]
  dsimp only
  rw [e0, e1, e2, e3, e4, e5, e6, e7, e8, e9, e10, e11]
  simp [posVals]

/-! ### Plumbing for the partition theorem -/

lemma needsRebuild_mono (l : List Cmd) :
    ∀ st : TLState, st.needsRebuild = true → (applyCmds st l).needsRebuild = true := by
  induction l with
  | nil => intro st h; exact h
  | cons c r ih =>
    intro st h
    cases c with
    | add a => exact ih _ rfl
    | setZ z => exact ih _ h

lemma needsRebuild_replay (cmds : List Cmd) :
    ∀ st : TLState, hasAdd cmds = true → (applyCmds st cmds).needsRebuild = true := by
  induction cmds with
  | nil => intro st h; simp [hasAdd] at h
  | cons c r ih =>
    intro st h
    cases c with
    | add a => exact needsRebuild_mono r _ rfl
    | setZ z => exact ih _ h

lemma applyCmds_meshes (cmds : List Cmd) :
    ∀ st : TLState, (applyCmds st cmds).meshes = st.meshes ∧
      (applyCmds st cmds).unifiedMesh = st.unifiedMesh := by
  induction cmds with
  | nil => intro st; exact ⟨rfl, rfl⟩
  | cons c r ih =>
    intro st
    cases c with
    | add a => exact ih (addRectFn st a)
    | setZ z => exact ih (setDrawZFn st z)

/-- Dirty `_flush` is exactly the rebuild path. -/
lemma flush_rebuild (env : Env) (st : TLState) (h : st.needsRebuild = true) :
    flush env st =
      rebuild env
        { st with
          tex := some (ensureTex st.bitmaps st.tex).1
          needsRebuild := false
          lastTileAnimX := st.tileAnimX
          lastTileAnimY := st.tileAnimY }
        st.tileAnimX st.tileAnimY := by
  unfold flush
  simp only [h, Bool.not_true, Bool.false_and, Bool.false_eq_true, if_false]

lemma unifiedRects_buildWaterFold (env : Env) (st : TLState) (texW texH tAx tAy : ℚ) :
    ∀ (L : List (Bool × ℤ)) (acc : TLState),
      (L.foldl (buildWaterStep env st texW texH tAx tAy) acc).unifiedRects =
        acc.unifiedRects := by
  intro L
  induction L with
  | nil => intro acc; rfl
  | cons p rest ih =>
    intro acc
    rw [List.foldl_cons, ih]
    unfold buildWaterStep
    dsimp only
    split <;> rfl

lemma unifiedRects_buildWaters (env : Env) (st : TLState) (tAx tAy : ℚ) :
    (buildWaters env st tAx tAy).unifiedRects = st.unifiedRects := by
  unfold buildWaters
  split
  · split
    · rfl
    · split
      · rw [unifiedRects_buildWaterFold]
      · rfl
  · rfl

lemma buildUnified_unifiedRects (env : Env) (st : TLState) (sorted : List URect)
    (tAx tAy : ℚ) : (buildUnified env st sorted tAx tAy).unifiedRects = some sorted := by
  unfold buildUnified
  dsimp only
  split <;> rfl

lemma buildShadow_unifiedRects (env : Env) (st : TLState) :
    (buildShadow env st).unifiedRects = st.unifiedRects := by
  unfold buildShadow
  dsimp only
  split <;> rfl

lemma allRectsOf_hideMeshes (wc : WaterClassifier) (st : TLState) :
    allRectsOf wc (hideMeshes st) = allRectsOf wc st := rfl

lemma rebuild_unifiedRects (env : Env) (st : TLState) (tAx tAy : ℚ) :
    (rebuild env st tAx tAy).unifiedRects = some (sortRects (allRectsOf env.wc st)) := by
  unfold rebuild
  rw [unifiedRects_buildWaters, buildUnified_unifiedRects, allRectsOf_hideMeshes]

lemma buildUnified_meshes (env : Env) (st : TLState) (sorted : List URect)
    (tAx tAy : ℚ) : (buildUnified env st sorted tAx tAy).meshes = st.meshes := by
  unfold buildUnified
  dsimp only
  split <;> rfl

lemma lookupMesh_nil (k : MeshKey) : lookupMesh [] k = none := rfl

lemma lookupMesh_setMesh_self (ms : List (MeshKey × Mesh)) (k : MeshKey) (m : Mesh) :
    lookupMesh (setMesh ms k m) k = some m := by
  induction ms with
  | nil => simp [setMesh, lookupMesh]
  | cons q t ih =>
    by_cases hq : q.1 = k
    · simp [setMesh, lookupMesh, hq]
    · simp [setMesh, lookupMesh, hq, ih]

lemma lookupMesh_setMesh_ne (ms : List (MeshKey × Mesh)) (k : MeshKey) (m : Mesh)
    (k2 : MeshKey) (h : k2 ≠ k) : lookupMesh (setMesh ms k m) k2 = lookupMesh ms k2 := by
  have hk : ¬ (k = k2) := fun he => h he.symm
  induction ms with
  | nil => simp [setMesh, lookupMesh, hk]
  | cons q t ih =>
    by_cases hq : q.1 = k
    · have hq2 : ¬ q.1 = k2 := by
        rw [hq]
        exact hk
      simp [setMesh, lookupMesh, hq, hq2, hk]
    · by_cases hq2 : q.1 = k2
      · simp [setMesh, lookupMesh, hq, hq2, h]
      · simp [setMesh, lookupMesh, hq, hq2, ih]

lemma shadow_ne_water (s : ℤ) (wf : Bool) (kind : ℤ) :
    MeshKey.shadow ≠ MeshKey.water s wf kind := by
  intro h
  exact MeshKey.noConfusion h

lemma lookupMesh_buildWaterFold_shadow (env : Env) (st : TLState) (texW texH tAx tAy : ℚ) :
    ∀ (L : List (Bool × ℤ)) (acc : TLState),
      lookupMesh (L.foldl (buildWaterStep env st texW texH tAx tAy) acc).meshes
          MeshKey.shadow =
        lookupMesh acc.meshes MeshKey.shadow := by
  intro L
  induction L with
  | nil => intro acc; rfl
  | cons p rest ih =>
    intro acc
    rw [List.foldl_cons, ih]
    unfold buildWaterStep
    dsimp only
    split
    · rfl
    · exact lookupMesh_setMesh_ne _ _ _ _ (shadow_ne_water 0 p.1 p.2)

lemma lookupMesh_buildWaters_shadow (env : Env) (st : TLState) (tAx tAy : ℚ) :
    lookupMesh (buildWaters env st tAx tAy).meshes MeshKey.shadow =
      lookupMesh st.meshes MeshKey.shadow := by
  unfold buildWaters
  split
  · split
    · rfl
    · split
      · rw [lookupMesh_buildWaterFold_shadow]
      · rfl
  · rfl

lemma buildShadow_lookup (env : Env) (st : TLState) (hm : st.meshes = []) :
    lookupMesh (buildShadow env st).meshes MeshKey.shadow =
      if (getRS st (-1)).count = 0 then none
      else some
        { pos := shadowPosArray st (!env.is3D && env.mapElevation), visible := true } := by
  unfold buildShadow
  dsimp only
  by_cases hc : (getRS st (-1)).count = 0
  · rw [if_pos hc, if_pos hc, hm]
    rfl
  · rw [if_neg hc, if_neg hc]
    dsimp only
    rw [hm]
    exact lookupMesh_setMesh_self [] _ _

lemma rebuild_shadow_lookup (env : Env) (st : TLState) (tAx tAy : ℚ)
    (hm : st.meshes = []) :
    lookupMesh (rebuild env st tAx tAy).meshes MeshKey.shadow =
      if (getRS st (-1)).count = 0 then none
      else some
        { pos := shadowPosArray st (!env.is3D && env.mapElevation), visible := true } := by
  unfold rebuild
  rw [lookupMesh_buildWaters_shadow, buildUnified_meshes]
  have hm2 : (hideMeshes st).meshes = [] := by
    show st.meshes.map _ = []
    rw [hm]
    rfl
  rw [buildShadow_lookup env (hideMeshes st) hm2]
  rfl

lemma not_mem_specUnified_water (wc : WaterClassifier) (cmds : List Cmd) (i : ℕ) (z : ℤ)
    (hw : specWater wc ((addsFor cmds 0).getD i dPair).1 = true) :
    URect.mk 0 i z ∉ specUnified wc cmds := by
  intro hmem
  obtain ⟨s, hskeys, hmem2⟩ := List.mem_flatMap.mp hmem
  obtain ⟨i2, hi2, heq⟩ := List.mem_filterMap.mp hmem2
  dsimp only at heq
  by_cases hc : (decide (s = 0) && specWater wc ((addsFor cmds s).getD i2 dPair).1) = true
  · rw [if_pos hc] at heq
    exact Option.noConfusion heq
  · rw [if_neg hc] at heq
    have heq2 := Option.some.inj heq
    have hs0 : s = 0 := congrArg URect.setNumber heq2
    have hii : i2 = i := congrArg URect.index heq2
    subst hs0
    subst hii
    apply hc
    rw [hw]
    simp

lemma flush_unifiedRects_dirty (env : Env) (st : TLState) (h : st.needsRebuild = true) :
    (flush env st).unifiedRects = some (sortRects (allRectsOf env.wc st)) := by
  rw [flush_rebuild env st h, rebuild_unifiedRects]
  rfl

lemma flush_shadow_lookup_dirty (env : Env) (st : TLState) (h : st.needsRebuild = true)
    (hm : st.meshes = []) :
    lookupMesh (flush env st).meshes MeshKey.shadow =
      if (getRS st (-1)).count = 0 then none
      else some
        { pos := shadowPosArray st (!env.is3D && env.mapElevation), visible := true } := by
  rw [flush_rebuild env st h]
  have hr := rebuild_shadow_lookup env
    { st with
      tex := some (ensureTex st.bitmaps st.tex).1
      needsRebuild := false
      lastTileAnimX := st.tileAnimX
      lastTileAnimY := st.tileAnimY }
    st.tileAnimX st.tileAnimY hm
  rw [hr]
  rfl

/-- Parameters of C1's amended theorem instantiated for its witness. -/
def c1env : Env :=
  { wc := { isWaterRect := fun ax _ => decide (ax = 1)
            isWaterfallRect := fun _ _ => false
            isKindEnabled := fun _ => true }
    is3D := false
    mapElevation := false }

/-- Witness session for C1: one shadow quad, one water set-0 quad, one plain
set-0 quad and one set-3 quad. -/
def c1cmds : List Cmd :=
  [Cmd.add { set := -1, u := 0, v := 0, x := 0, y := 0, w := 32, h := 32 },
   Cmd.add { set := 0, u := 0, v := 0, x := 0, y := 0, w := 32, h := 32,
             animX := some 1, animY := some 0, kind := some 2 },
   Cmd.setZ 1,
   Cmd.add { set := 0, u := 96, v := 0, x := 32, y := 0, w := 32, h := 32 },
   Cmd.add { set := 3, u := 0, v := 64, x := 64, y := 0, w := 32, h := 32 }]

/-- C1 (amended): replaying any `addRect`/z-cursor session from a fresh
layer and flushing yields: the unified batch is exactly the stable drawZ
sort of the non-shadow rects minus the set-0 rects the external classifier
marks as water (sets 1..8 are never water-tested), each tagged
`{setNumber, index, drawZ}`; sorting preserves membership; a water-classified
set-0 rect never reaches the unified batch; and the shadow mesh holds
exactly the set −1 quads (absent when there are none). -/
theorem c1_flush_partition (env : Env) (cmds : List Cmd) (h : hasAdd cmds = true) :
    (flush env (applyCmds initState cmds)).unifiedRects =
        some (sortRects (specUnified env.wc cmds)) ∧
    (∀ r : URect,
        r ∈ sortRects (specUnified env.wc cmds) ↔ r ∈ specUnified env.wc cmds) ∧
    (∀ i z, specWater env.wc ((addsFor cmds 0).getD i dPair).1 = true →
        URect.mk 0 i z ∉ sortRects (specUnified env.wc cmds)) ∧
    lookupMesh (flush env (applyCmds initState cmds)).meshes MeshKey.shadow =
      (if (addsFor cmds (-1)).length = 0 then none
       else some
         { pos := specShadowPos cmds (!env.is3D && env.mapElevation), visible := true }) := by
  have henc := encOK_replay cmds
  have hnr := needsRebuild_replay cmds initState h
  have hmm : (applyCmds initState cmds).meshes = [] := by
    rw [(applyCmds_meshes cmds initState).1]
    rfl
  refine ⟨?_, fun r => mem_sortRects _ r, ?_, ?_⟩
  · rw [flush_unifiedRects_dirty env _ hnr, allRects_enc env.wc cmds _ henc]
  · intro i z hw hmem
    exact not_mem_specUnified_water env.wc cmds i z hw ((mem_sortRects _ _).mp hmem)
  · rw [flush_shadow_lookup_dirty env _ hnr hmm, (henc.2 (-1)).count_eq,
      shadowPos_enc cmds _ (!env.is3D && env.mapElevation) henc]

/-- Witness for C1: the amended partition theorem applied to the concrete
session `c1cmds` under the concrete classifier of `c1env`. -/
theorem c1_flush_partition_witness :
    hasAdd c1cmds = true ∧
    (flush c1env (applyCmds initState c1cmds)).unifiedRects =
      some (sortRects (specUnified c1env.wc c1cmds)) ∧
    lookupMesh (flush c1env (applyCmds initState c1cmds)).meshes MeshKey.shadow =
      (if (addsFor c1cmds (-1)).length = 0 then none
       else some
         { pos := specShadowPos c1cmds (!c1env.is3D && c1env.mapElevation),
           visible := true }) :=
  ⟨by decide, (c1_flush_partition c1env c1cmds (by decide)).1,
    (c1_flush_partition c1env c1cmds (by decide)).2.2.2⟩

/-- Classifier marking every anim signature as (non-waterfall) water. -/
def c1badWc : WaterClassifier :=
  { isWaterRect := fun _ _ => true
    isWaterfallRect := fun _ _ => false
    isKindEnabled := fun _ => true }

/-- Environment for C1's counterexample. -/
def c1badEnv : Env := { wc := c1badWc, is3D := false, mapElevation := false }

/-- One `addRect` on set 1. -/
def c1badCmds : List Cmd :=
  [Cmd.add { set := 1, u := 0, v := 0, x := 0, y := 0, w := 32, h := 32 }]

/-- C1 counterexample to the claim as stated: under a classifier that marks
every anim signature as water, a rect added to set 1 is water-classified
(`isWaterRect` true on its 0,0 signature, kind −1), yet after `flush()` it
sits in the unified batch — the classifier is never consulted for sets other
than 0, so "for every other set each rect is tested … water-classified rects
are excluded from the unified batch" fails at set 1. -/
theorem c1_counterexample :
    c1badEnv.wc.isWaterRect 0 0 = true ∧
    URect.mk 1 0 0 ∈
      ((flush c1badEnv (applyCmds initState c1badCmds)).unifiedRects.getD []) := by
  constructor
  · rfl
  · decide

/-- Classifier that never classifies water (scenario environments). -/
def noWaterWc : WaterClassifier :=
  { isWaterRect := fun _ _ => false
    isWaterfallRect := fun _ _ => false
    isKindEnabled := fun _ => true }

/-- Environment for C3's scenario. -/
def c3env : Env := { wc := noWaterWc, is3D := false, mapElevation := false }

/-- C3 scenario session: a rect at drawZ 2, then two rects at drawZ 1. -/
def c3cmds : List Cmd :=
  [Cmd.setZ 2,
   Cmd.add { set := 1, u := 0, v := 0, x := 0, y := 0, w := 32, h := 32 },
   Cmd.setZ 1,
   Cmd.add { set := 1, u := 32, v := 0, x := 32, y := 0, w := 32, h := 32 },
   Cmd.add { set := 1, u := 64, v := 0, x := 64, y := 0, w := 32, h := 32 }]

/-- C3: the drawZ sort of `_flush` is stable — for every drawZ value, the
subsequence of rects carrying it is unchanged by sorting (so equal-drawZ
rects keep their insertion order) — and in particular adding rects at
drawZ 2, 1, 1 yields the unified order [first drawZ-1 rect, second drawZ-1
rect, drawZ-2 rect] after `flush()`. -/
theorem c3_stable_sort :
    (∀ (l : List URect) (z : ℤ),
      (sortRects l).filter (fun r => decide (r.drawZ = z)) =
        l.filter (fun r => decide (r.drawZ = z))) ∧
    (flush c3env (applyCmds initState c3cmds)).unifiedRects =
      some [⟨1, 1, 1⟩, ⟨1, 2, 1⟩, ⟨1, 0, 2⟩] :=
  ⟨sortRects_filter_drawZ, by decide⟩

/-- Synthetic state for C4's witness: set 0 holds a full store
(count = capacity = 2). -/
def c4st : TLState :=
  { initState with
    rectData := fun s =>
      if s = 0 then
        some { positions := fun i => (i : ℚ), uvs := fun i => (i : ℚ) + 7,
               count := 2, capacity := 2 }
      else none }

/-- The `addRect` arguments used by C4's witness. -/
def c4add : AddData := { set := 0, u := 1, v := 2, x := 3, y := 4, w := 5, h := 6 }

/-- C4: `count ≤ capacity` is preserved by `addRect`; a full store doubles
its capacity and keeps every stored position/UV entry unchanged; neither
`addRect` nor `clear()` ever shrinks a store's capacity, and `clear()`
keeps `count ≤ capacity`. -/
theorem c4_capacity_growth (st : TLState) (a : AddData) (s0 : ℤ)
    (h1 : (getRS st a.set).count ≤ (getRS st a.set).capacity)
    (h2 : 0 < (getRS st a.set).capacity) :
    (getRS (addRectFn st a) a.set).count ≤ (getRS (addRectFn st a) a.set).capacity ∧
    (getRS st a.set).capacity ≤ (getRS (addRectFn st a) a.set).capacity ∧
    ((getRS st a.set).count = (getRS st a.set).capacity →
      (getRS (addRectFn st a) a.set).capacity = 2 * (getRS st a.set).capacity ∧
      (∀ i, i < (getRS st a.set).count * 12 →
        (getRS (addRectFn st a) a.set).positions i = (getRS st a.set).positions i ∧
        (getRS (addRectFn st a) a.set).uvs i = (getRS st a.set).uvs i)) ∧
    (getRS (clearFn st) s0).count ≤ (getRS (clearFn st) s0).capacity ∧
    (getRS (clearFn st) s0).capacity = (getRS st s0).capacity := by
  have hcl : (getRS (clearFn st) s0).count = 0 ∧
      (getRS (clearFn st) s0).capacity = (getRS st s0).capacity := by
    cases hs : st.rectData s0 with
    | none => simp [clearFn, getRS, hs, freshRectSet]
    | some d => simp [clearFn, getRS, hs]
  refine ⟨?_, ?_, ?_, ?_, ?_⟩
  · rw [getRS_addRect_self, bumpRS_count, bumpRS_capacity]
    by_cases hg : (getRS st a.set).capacity ≤ (getRS st a.set).count
    · rw [if_pos hg]
      omega
    · rw [if_neg hg]
      omega
  · rw [getRS_addRect_self, bumpRS_capacity]
    by_cases hg : (getRS st a.set).capacity ≤ (getRS st a.set).count
    · rw [if_pos hg]
      omega
    · rw [if_neg hg]
  · intro hfull
    constructor
    · rw [getRS_addRect_self, bumpRS_capacity, if_pos (le_of_eq hfull.symm)]
      omega
    · intro i hi
      rw [getRS_addRect_self]
      exact ⟨bumpRS_positions_old _ a h1 i hi, bumpRS_uvs_old _ a h1 i hi⟩
  · rw [hcl.1]
    omega
  · exact hcl.2

/-- Witness for C4: a synthetic full store (count = capacity = 2) at set 0
doubles to capacity 4 on `addRect`, keeping entry 5, and `clear()` keeps
its capacity. -/
theorem c4_capacity_growth_witness :
    ((getRS c4st 0).count ≤ (getRS c4st 0).capacity ∧ 0 < (getRS c4st 0).capacity) ∧
    (getRS (addRectFn c4st c4add) 0).capacity = 2 * (getRS c4st 0).capacity ∧
    (getRS (addRectFn c4st c4add) 0).positions 5 = (getRS c4st 0).positions 5 ∧
    (getRS (clearFn c4st) 0).capacity = (getRS c4st 0).capacity := by
  have h1 : (getRS c4st 0).count ≤ (getRS c4st 0).capacity := by decide
  have h2 : 0 < (getRS c4st 0).capacity := by decide
  have hfull : (getRS c4st 0).count = (getRS c4st 0).capacity := by decide
  have hmain := c4_capacity_growth c4st c4add 0 h1 h2
  exact ⟨⟨h1, h2⟩, (hmain.2.2.1 hfull).1,
    ((hmain.2.2.1 hfull).2 5 (by decide)).1, hmain.2.2.2.2⟩

/-- C5: one `addRect` appends exactly one 6-vertex quad in vertex order
TL,TR,BL,TR,BR,BL with the stated positions and pixel UVs, appends exactly
one anim pair (defaults 0,0), one kind entry (default −1) and one drawZ
entry in lockstep, and bumps `count` by exactly 1. -/
theorem c5_addRect_appends_quad (st : TLState) (a : AddData) :
    (getRS (addRectFn st a) a.set).count = (getRS st a.set).count + 1 ∧
    (getRS (addRectFn st a) a.set).positions ((getRS st a.set).count * 12) = a.x ∧
    (getRS (addRectFn st a) a.set).positions ((getRS st a.set).count * 12 + 1) = a.y ∧
    (getRS (addRectFn st a) a.set).positions ((getRS st a.set).count * 12 + 2) = a.x + a.w ∧
    (getRS (addRectFn st a) a.set).positions ((getRS st a.set).count * 12 + 3) = a.y ∧
    (getRS (addRectFn st a) a.set).positions ((getRS st a.set).count * 12 + 4) = a.x ∧
    (getRS (addRectFn st a) a.set).positions ((getRS st a.set).count * 12 + 5) = a.y + a.h ∧
    (getRS (addRectFn st a) a.set).positions ((getRS st a.set).count * 12 + 6) = a.x + a.w ∧
    (getRS (addRectFn st a) a.set).positions ((getRS st a.set).count * 12 + 7) = a.y ∧
    (getRS (addRectFn st a) a.set).positions ((getRS st a.set).count * 12 + 8) = a.x + a.w ∧
    (getRS (addRectFn st a) a.set).positions ((getRS st a.set).count * 12 + 9) = a.y + a.h ∧
    (getRS (addRectFn st a) a.set).positions ((getRS st a.set).count * 12 + 10) = a.x ∧
    (getRS (addRectFn st a) a.set).positions ((getRS st a.set).count * 12 + 11) = a.y + a.h ∧
    (getRS (addRectFn st a) a.set).uvs ((getRS st a.set).count * 12) = a.u ∧
    (getRS (addRectFn st a) a.set).uvs ((getRS st a.set).count * 12 + 1) = a.v ∧
    (getRS (addRectFn st a) a.set).uvs ((getRS st a.set).count * 12 + 2) = a.u + a.w ∧
    (getRS (addRectFn st a) a.set).uvs ((getRS st a.set).count * 12 + 3) = a.v ∧
    (getRS (addRectFn st a) a.set).uvs ((getRS st a.set).count * 12 + 4) = a.u ∧
    (getRS (addRectFn st a) a.set).uvs ((getRS st a.set).count * 12 + 5) = a.v + a.h ∧
    (getRS (addRectFn st a) a.set).uvs ((getRS st a.set).count * 12 + 6) = a.u + a.w ∧
    (getRS (addRectFn st a) a.set).uvs ((getRS st a.set).count * 12 + 7) = a.v ∧
    (getRS (addRectFn st a) a.set).uvs ((getRS st a.set).count * 12 + 8) = a.u + a.w ∧
    (getRS (addRectFn st a) a.set).uvs ((getRS st a.set).count * 12 + 9) = a.v + a.h ∧
    (getRS (addRectFn st a) a.set).uvs ((getRS st a.set).count * 12 + 10) = a.u ∧
    (getRS (addRectFn st a) a.set).uvs ((getRS st a.set).count * 12 + 11) = a.v + a.h ∧
    (addRectFn st a).animData a.set =
      st.animData a.set ++ [a.animX.getD 0, a.animY.getD 0] ∧
    (addRectFn st a).kindData a.set = st.kindData a.set ++ [a.kind.getD (-1)] ∧
    (addRectFn st a).drawZData a.set = st.drawZData a.set ++ [st.currentDrawZ] :=
  ⟨by rw [getRS_addRect_self, bumpRS_count],
   by rw [getRS_addRect_self]; exact bumpRS_positions_new _ a 0 (by norm_num),
   by rw [getRS_addRect_self]; exact bumpRS_positions_new _ a 1 (by norm_num),
   by rw [getRS_addRect_self]; exact bumpRS_positions_new _ a 2 (by norm_num),
   by rw [getRS_addRect_self]; exact bumpRS_positions_new _ a 3 (by norm_num),
   by rw [getRS_addRect_self]; exact bumpRS_positions_new _ a 4 (by norm_num),
   by rw [getRS_addRect_self]; exact bumpRS_positions_new _ a 5 (by norm_num),
   by rw [getRS_addRect_self]; exact bumpRS_positions_new _ a 6 (by norm_num),
   by rw [getRS_addRect_self]; exact bumpRS_positions_new _ a 7 (by norm_num),
   by rw [getRS_addRect_self]; exact bumpRS_positions_new _ a 8 (by norm_num),
   by rw [getRS_addRect_self]; exact bumpRS_positions_new _ a 9 (by norm_num),
   by rw [getRS_addRect_self]; exact bumpRS_positions_new _ a 10 (by norm_num),
   by rw [getRS_addRect_self]; exact bumpRS_positions_new _ a 11 (by norm_num),
   by rw [getRS_addRect_self]; exact bumpRS_uvs_new _ a 0 (by norm_num),
   by rw [getRS_addRect_self]; exact bumpRS_uvs_new _ a 1 (by norm_num),
   by rw [getRS_addRect_self]; exact bumpRS_uvs_new _ a 2 (by norm_num),
   by rw [getRS_addRect_self]; exact bumpRS_uvs_new _ a 3 (by norm_num),
   by rw [getRS_addRect_self]; exact bumpRS_uvs_new _ a 4 (by norm_num),
   by rw [getRS_addRect_self]; exact bumpRS_uvs_new _ a 5 (by norm_num),
   by rw [getRS_addRect_self]; exact bumpRS_uvs_new _ a 6 (by norm_num),
   by rw [getRS_addRect_self]; exact bumpRS_uvs_new _ a 7 (by norm_num),
   by rw [getRS_addRect_self]; exact bumpRS_uvs_new _ a 8 (by norm_num),
   by rw [getRS_addRect_self]; exact bumpRS_uvs_new _ a 9 (by norm_num),
   by rw [getRS_addRect_self]; exact bumpRS_uvs_new _ a 10 (by norm_num),
   by rw [getRS_addRect_self]; exact bumpRS_uvs_new _ a 11 (by norm_num),
   animData_addRect_self st a, kindData_addRect_self st a,
   drawZData_addRect_self st a⟩

/-- Environment for C6's scenario. -/
def c6env : Env := { wc := noWaterWc, is3D := false, mapElevation := false }

/-- C6 scenario session: `addRect(0, 0,0, 32,32, 32,32)`. -/
def c6cmds : List Cmd :=
  [Cmd.add { set := 0, u := 0, v := 0, x := 32, y := 32, w := 32, h := 32 }]

/-- C6: in the unified mesh every vertex UV equals
`(stored pixel UV + per-rect anim offset · phase) / TILESET_TEX_SIZE` with
the same (unflipped) formula on both axes, and the per-vertex texture-layer
attribute is the rect's setNumber; the scenario `addRect(0, 0,0, 32,32,
32,32)` then `flush()` yields one quad spanning pixels (32,32)-(64,64),
layer 0, UVs spanning (0,0)-(32/768, 32/768). -/
theorem c6_unified_vertex_formulas :
    (∀ (st : TLState) (sorted : List URect) (tAx tAy : ℚ) (ri j : ℕ),
      ri < sorted.length → j < 6 →
      (unifiedUVArray st sorted tAx tAy).getD (12 * ri + 2 * j) 0 =
        ((getRS st (sorted.getD ri default).setNumber).uvs
            (12 * (sorted.getD ri default).index + 2 * j) +
          (st.animData (sorted.getD ri default).setNumber).getD
            (2 * (sorted.getD ri default).index) 0 * tAx) / texSize ∧
      (unifiedUVArray st sorted tAx tAy).getD (12 * ri + 2 * j + 1) 0 =
        ((getRS st (sorted.getD ri default).setNumber).uvs
            (12 * (sorted.getD ri default).index + 2 * j + 1) +
          (st.animData (sorted.getD ri default).setNumber).getD
            (2 * (sorted.getD ri default).index + 1) 0 * tAy) / texSize ∧
      (unifiedLayerArray sorted).getD (6 * ri + j) 0 =
        ((sorted.getD ri default).setNumber : ℚ)) ∧
    (flush c6env (applyCmds initState c6cmds)).unifiedMesh =
      some
        { pos := [32, 32, 0, 64, 32, 0, 32, 64, 0, 64, 32, 0, 64, 64, 0, 32, 64, 0]
          normal := quadNormal
          uv := [0, 0, 32 / 768, 0, 0, 32 / 768, 32 / 768, 0, 32 / 768, 32 / 768,
                 0, 32 / 768]
          layer := [0, 0, 0, 0, 0, 0]
          visible := true
          maxDrawZ := 0 } := by
  constructor
  · intro st sorted tAx tAy ri j hri hj
    have hu := flatMap_getD_chunk (fun r => uQuadUV st r tAx tAy) 12
      (fun _ => rfl) default sorted ri (2 * j) hri (by omega)
    have hvidx : 12 * ri + 2 * j + 1 = 12 * ri + (2 * j + 1) := by omega
    have hv := flatMap_getD_chunk (fun r => uQuadUV st r tAx tAy) 12
      (fun _ => rfl) default sorted ri (2 * j + 1) hri (by omega)
    have hl := flatMap_getD_chunk uQuadLayer 6
      (fun _ => rfl) default sorted ri j hri hj
    refine ⟨?_, ?_, ?_⟩
    · rw [show (unifiedUVArray st sorted tAx tAy).getD (12 * ri + 2 * j) 0 =
          (uQuadUV st (sorted.getD ri default) tAx tAy).getD (2 * j) 0 from hu]
      interval_cases j <;> rfl
    · rw [hvidx,
        show (unifiedUVArray st sorted tAx tAy).getD (12 * ri + (2 * j + 1)) 0 =
          (uQuadUV st (sorted.getD ri default) tAx tAy).getD (2 * j + 1) 0 from hv]
      interval_cases j <;> rfl
    · rw [show (unifiedLayerArray sorted).getD (6 * ri + j) 0 =
          (uQuadLayer (sorted.getD ri default)).getD j 0 from hl]
      interval_cases j <;> rfl
  · with_unfolding_all decide

/-- Witness for C6: the per-vertex formulas instantiated on the scenario
state at rect 0, vertex 1 (the top-right vertex of the quad). -/
theorem c6_unified_vertex_formulas_witness :
    0 < (sortRects (allRectsOf c6env.wc (applyCmds initState c6cmds))).length ∧ 1 < 6 ∧
    (unifiedUVArray (applyCmds initState c6cmds)
        (sortRects (allRectsOf c6env.wc (applyCmds initState c6cmds))) 0 0).getD 2 0 =
      (32 : ℚ) / 768 :=
  ⟨by decide, by norm_num,
    by
      have h := (c6_unified_vertex_formulas.1 (applyCmds initState c6cmds)
        (sortRects (allRectsOf c6env.wc (applyCmds initState c6cmds))) 0 0 0 1
        (by decide) (by norm_num)).1
      rw [show (12 * 0 + 2 * 1 : ℕ) = 2 from rfl] at h
      rw [h]
      with_unfolding_all decide⟩

lemma wQuadUV_getD_u (st : TLState) (s : ℤ) (i : ℕ) (texW texH tAx tAy : ℚ) (j : ℕ)
    (hj : j < 6) :
    (wQuadUV st s i texW texH tAx tAy).getD (2 * j) 0 = wU st s i texW tAx j := by
  interval_cases j <;> rfl

lemma wQuadUV_getD_v (st : TLState) (s : ℤ) (i : ℕ) (texW texH tAx tAy : ℚ) (j : ℕ)
    (hj : j < 6) :
    (wQuadUV st s i texW texH tAx tAy).getD (2 * j + 1) 0 = wV st s i texH tAy j := by
  interval_cases j <;> rfl

lemma wQuadBounds_getD (st : TLState) (s : ℤ) (i : ℕ) (texW texH tAx tAy : ℚ)
    (j c : ℕ) (hj : j < 6) (hc : c < 4) :
    (wQuadBounds st s i texW texH tAx tAy).getD (4 * j + c) 0 =
      (wQuadBounds4 st s i texW texH tAx tAy).getD c 0 := by
  interval_cases j <;> interval_cases c <;> rfl

/-- C7: for every quad of a built water mesh, the uploaded per-vertex
UV-bounds vec4 equals the min/max over that quad's six (flipped) uploaded
UVs moved inward by exactly half a texel per axis:
`(uMin + 0.5/texW, vMin + 0.5/texH, uMax − 0.5/texW, vMax − 0.5/texH)`. -/
theorem c7_water_bounds_inset (st : TLState) (s : ℤ) (idxs : List ℕ)
    (texW texH tAx tAy : ℚ) (wf : Bool) (kind : ℤ) (elev : Bool) (ni j : ℕ)
    (hni : ni < idxs.length) (hj : j < 6) :
    (buildWaterTypeMesh st s idxs texW texH tAx tAy wf kind elev).uvBounds.getD
        (24 * ni + 4 * j) 0 =
      min6 (fun j2 =>
        (buildWaterTypeMesh st s idxs texW texH tAx tAy wf kind elev).uv.getD
          (12 * ni + 2 * j2) 0) + 1 / 2 / texW ∧
    (buildWaterTypeMesh st s idxs texW texH tAx tAy wf kind elev).uvBounds.getD
        (24 * ni + 4 * j + 1) 0 =
      min6 (fun j2 =>
        (buildWaterTypeMesh st s idxs texW texH tAx tAy wf kind elev).uv.getD
          (12 * ni + (2 * j2 + 1)) 0) + 1 / 2 / texH ∧
    (buildWaterTypeMesh st s idxs texW texH tAx tAy wf kind elev).uvBounds.getD
        (24 * ni + 4 * j + 2) 0 =
      max6 (fun j2 =>
        (buildWaterTypeMesh st s idxs texW texH tAx tAy wf kind elev).uv.getD
          (12 * ni + 2 * j2) 0) - 1 / 2 / texW ∧
    (buildWaterTypeMesh st s idxs texW texH tAx tAy wf kind elev).uvBounds.getD
        (24 * ni + 4 * j + 3) 0 =
      max6 (fun j2 =>
        (buildWaterTypeMesh st s idxs texW texH tAx tAy wf kind elev).uv.getD
          (12 * ni + (2 * j2 + 1)) 0) - 1 / 2 / texH := by
  have huvarr : (buildWaterTypeMesh st s idxs texW texH tAx tAy wf kind elev).uv =
      idxs.flatMap (fun i => wQuadUV st s i texW texH tAx tAy) := rfl
  have hbarr : (buildWaterTypeMesh st s idxs texW texH tAx tAy wf kind elev).uvBounds =
      idxs.flatMap (fun i => wQuadBounds st s i texW texH tAx tAy) := rfl
  have hu : ∀ j2, j2 < 6 →
      (buildWaterTypeMesh st s idxs texW texH tAx tAy wf kind elev).uv.getD
        (12 * ni + 2 * j2) 0 = wU st s (idxs.getD ni 0) texW tAx j2 := by
    intro j2 hj2
    rw [huvarr,
      flatMap_getD_chunk (fun i => wQuadUV st s i texW texH tAx tAy) 12
        (fun _ => rfl) 0 idxs ni (2 * j2) hni (by omega),
      wQuadUV_getD_u st s _ texW texH tAx tAy j2 hj2]
  have hv : ∀ j2, j2 < 6 →
      (buildWaterTypeMesh st s idxs texW texH tAx tAy wf kind elev).uv.getD
        (12 * ni + (2 * j2 + 1)) 0 = wV st s (idxs.getD ni 0) texH tAy j2 := by
    intro j2 hj2
    rw [huvarr,
      flatMap_getD_chunk (fun i => wQuadUV st s i texW texH tAx tAy) 12
        (fun _ => rfl) 0 idxs ni (2 * j2 + 1) hni (by omega),
      wQuadUV_getD_v st s _ texW texH tAx tAy j2 hj2]
  have hb : ∀ c, c < 4 →
      (buildWaterTypeMesh st s idxs texW texH tAx tAy wf kind elev).uvBounds.getD
        (24 * ni + (4 * j + c)) 0 =
      (wQuadBounds4 st s (idxs.getD ni 0) texW texH tAx tAy).getD c 0 := by
    intro c hc
    rw [hbarr,
      flatMap_getD_chunk (fun i => wQuadBounds st s i texW texH tAx tAy) 24
        (fun _ => rfl) 0 idxs ni (4 * j + c) hni (by omega),
      wQuadBounds_getD st s _ texW texH tAx tAy j c hj hc]
  refine ⟨?_, ?_, ?_, ?_⟩
  · have h0 := hb 0 (by norm_num)
    rw [show 24 * ni + (4 * j + 0) = 24 * ni + 4 * j from by omega] at h0
    rw [h0]
    simp only [min6]
    rw [hu 0 (by norm_num), hu 1 (by norm_num), hu 2 (by norm_num),
      hu 3 (by norm_num), hu 4 (by norm_num), hu 5 (by norm_num)]
    rfl
  · have h1 := hb 1 (by norm_num)
    rw [show 24 * ni + (4 * j + 1) = 24 * ni + 4 * j + 1 from by omega] at h1
    rw [h1]
    simp only [min6]
    rw [hv 0 (by norm_num), hv 1 (by norm_num), hv 2 (by norm_num),
      hv 3 (by norm_num), hv 4 (by norm_num), hv 5 (by norm_num)]
    rfl
  · have h2 := hb 2 (by norm_num)
    rw [show 24 * ni + (4 * j + 2) = 24 * ni + 4 * j + 2 from by omega] at h2
    rw [h2]
    simp only [max6]
    rw [hu 0 (by norm_num), hu 1 (by norm_num), hu 2 (by norm_num),
      hu 3 (by norm_num), hu 4 (by norm_num), hu 5 (by norm_num)]
    rfl
  · have h3 := hb 3 (by norm_num)
    rw [show 24 * ni + (4 * j + 3) = 24 * ni + 4 * j + 3 from by omega] at h3
    rw [h3]
    simp only [max6]
    rw [hv 0 (by norm_num), hv 1 (by norm_num), hv 2 (by norm_num),
      hv 3 (by norm_num), hv 4 (by norm_num), hv 5 (by norm_num)]
    rfl

/-- State for C7's witness: one set-0 quad. -/
def c7st : TLState :=
  applyCmds initState
    [Cmd.add { set := 0, u := 0, v := 0, x := 0, y := 0, w := 48, h := 48 }]

/-- Witness for C7: the inset equation of the uMin bound on a concrete
48×48 quad in a 96×96 water texture. -/
theorem c7_water_bounds_inset_witness :
    0 < ([0] : List ℕ).length ∧
    (buildWaterTypeMesh c7st 0 [0] 96 96 0 0 false 2 false).uvBounds.getD
        (24 * 0 + 4 * 0) 0 =
      min6 (fun j2 =>
        (buildWaterTypeMesh c7st 0 [0] 96 96 0 0 false 2 false).uv.getD
          (12 * 0 + 2 * j2) 0) + 1 / 2 / 96 :=
  ⟨by norm_num,
    (c7_water_bounds_inset c7st 0 [0] 96 96 0 0 false 2 false 0 0 (by norm_num)
      (by norm_num)).1⟩

/-- C8: when the array texture exists and every bound, decoded source's
version matches the recorded per-layer version with its loaded flag set,
the scan performs zero copies and returns the texture state — dirty flag
included — unchanged. -/
theorem c8_texture_scan_idempotent (bm : List (Option Bitmap)) (t : TexState)
    (h : ∀ i, i < layerCount → readyBM bm i = true →
      t.loaded i = true ∧ t.versions i = versionBM bm i) :
    ensureTex bm (some t) = (t, 0) := by
  unfold ensureTex
  simp only [Option.getD_some]
  have hall : ∀ i ∈ List.range layerCount, skipHolds bm t i := by
    intro i hi hready
    exact h i (List.mem_range.mp hi) hready
  rw [scanList_skip_all bm _ t 0 hall]
  simp

/-- Bound sources for C8's witness: one decoded 48×48 image at version 3. -/
def c8bm : List (Option Bitmap) :=
  [some { hasImage := true, width := 48, height := 48, version := 3, pixels := fun _ => 0 }]

/-- Recorded texture state for C8's witness: layer 0 loaded at version 3,
dirty flag clear. -/
def c8t : TexState :=
  { dataFn := fun _ => 0
    dirty := false
    loaded := fun i => decide (i = 0)
    versions := fun i => if i = 0 then 3 else 0 }

/-- Witness for C8: scanning the up-to-date layer again copies nothing and
leaves the texture state untouched. -/
theorem c8_texture_scan_idempotent_witness :
    (∀ i, i < layerCount → readyBM c8bm i = true →
      c8t.loaded i = true ∧ c8t.versions i = versionBM c8bm i) ∧
    ensureTex c8bm (some c8t) = (c8t, 0) :=
  ⟨by decide, c8_texture_scan_idempotent c8bm c8t (by decide)⟩

/-! ### C10 plumbing: non-set-0 water keys are never touched -/

lemma lookupMesh_map_val (ms : List (MeshKey × Mesh)) (f : Mesh → Mesh) (k : MeshKey) :
    lookupMesh (ms.map fun p => (p.1, f p.2)) k = (lookupMesh ms k).map f := by
  induction ms with
  | nil => rfl
  | cons q t ih =>
    by_cases hq : q.1 = k
    · simp [lookupMesh, hq]
    · simp [lookupMesh, hq, ih]

lemma lookupMesh_buildWaterFold_ne (env : Env) (st : TLState) (texW texH tAx tAy : ℚ)
    (k : MeshKey) (hk : ∀ wf2 kind2, k ≠ MeshKey.water 0 wf2 kind2) :
    ∀ (L : List (Bool × ℤ)) (acc : TLState),
      lookupMesh (L.foldl (buildWaterStep env st texW texH tAx tAy) acc).meshes k =
        lookupMesh acc.meshes k := by
  intro L
  induction L with
  | nil => intro acc; rfl
  | cons p rest ih =>
    intro acc
    rw [List.foldl_cons, ih]
    unfold buildWaterStep
    dsimp only
    split
    · rfl
    · exact lookupMesh_setMesh_ne _ _ _ _ (hk p.1 p.2)

lemma lookupMesh_buildWaters_ne (env : Env) (st : TLState) (tAx tAy : ℚ) (k : MeshKey)
    (hk : ∀ wf2 kind2, k ≠ MeshKey.water 0 wf2 kind2) :
    lookupMesh (buildWaters env st tAx tAy).meshes k = lookupMesh st.meshes k := by
  unfold buildWaters
  split
  · split
    · rfl
    · split
      · rw [lookupMesh_buildWaterFold_ne env st _ _ _ _ k hk]
      · rfl
  · rfl

lemma lookupMesh_buildShadow_ne (env : Env) (st : TLState) (k : MeshKey)
    (hk : k ≠ MeshKey.shadow) :
    lookupMesh (buildShadow env st).meshes k = lookupMesh st.meshes k := by
  unfold buildShadow
  dsimp only
  split
  · rfl
  · exact lookupMesh_setMesh_ne _ _ _ _ hk

lemma lookupMesh_fastMap_ne (env : Env) (st : TLState) (tAx tAy : ℚ)
    (ms : List (MeshKey × Mesh)) (k : MeshKey)
    (hk : ∀ wf2 kind2, k ≠ MeshKey.water 0 wf2 kind2) :
    lookupMesh (ms.map fun p =>
      match p.1 with
      | MeshKey.water s2 _ _ =>
        if s2 = 0 then (p.1, fastWater env.wc st p.2 tAx tAy) else p
      | _ => p) k = lookupMesh ms k := by
  induction ms with
  | nil => rfl
  | cons q t ih =>
    rw [List.map_cons]
    rcases hq1 : q.1 with _ | ⟨s2, wf2, kind2⟩
    · dsimp only
      by_cases hqk : q.1 = k
      · simp [lookupMesh, hqk]
      · simp [lookupMesh, hqk, ih]
    · dsimp only
      by_cases hs2 : s2 = 0
      · subst hs2
        rw [if_pos rfl]
        have hqk : ¬ (MeshKey.water 0 wf2 kind2 = k) := fun he => hk wf2 kind2 he.symm
        have hqk2 : ¬ (q.1 = k) := by
          rw [hq1]
          exact hqk
        simp [lookupMesh, hqk, hqk2, ih]
      · rw [if_neg hs2]
        by_cases hqk : q.1 = k
        · simp [lookupMesh, hqk]
        · simp [lookupMesh, hqk, ih]

lemma lookupMesh_updateAnimUVs_ne (env : Env) (st : TLState) (tAx tAy : ℚ)
    (k : MeshKey) (hk : ∀ wf2 kind2, k ≠ MeshKey.water 0 wf2 kind2) :
    lookupMesh (updateAnimUVs env st tAx tAy).meshes k = lookupMesh st.meshes k := by
  unfold updateAnimUVs
  dsimp only
  split
  · split
    · split
      · exact lookupMesh_fastMap_ne env st tAx tAy st.meshes k hk
      · exact lookupMesh_fastMap_ne env st tAx tAy st.meshes k hk
    · exact lookupMesh_fastMap_ne env st tAx tAy st.meshes k hk
  · split
    · split <;> rfl
    · rfl

/-- C10: the water classifier is consulted only for setNumber 0.  A rect of
any set 1..8 always reaches the (sorted) unified list no matter what the
classifier answers; `hasWaterBySet` is never set for such a set; a rebuild
leaves every cached water mesh of a set ≠ 0 untouched except for the
blanket visibility reset; and the animation fast path leaves such meshes
completely unchanged. -/
theorem c10_classifier_only_set0 (env : Env) (st : TLState) (s : ℤ) (i : ℕ)
    (tAx tAy : ℚ) (hs1 : 1 ≤ s) (hs8 : s ≤ 8) (hi : i < (getRS st s).count) :
    URect.mk s i ((st.drawZData s).getD i 0) ∈ sortRects (allRectsOf env.wc st) ∧
    hasWaterSet env.wc st s = false ∧
    (∀ wf kind,
      lookupMesh (rebuild env st tAx tAy).meshes (MeshKey.water s wf kind) =
        (lookupMesh st.meshes (MeshKey.water s wf kind)).map
          (fun m => { m with visible := false })) ∧
    (∀ wf kind,
      lookupMesh (updateAnimUVs env st tAx tAy).meshes (MeshKey.water s wf kind) =
        lookupMesh st.meshes (MeshKey.water s wf kind)) := by
  have hs0 : ¬ (s = 0) := by omega
  refine ⟨?_, ?_, ?_, ?_⟩
  · rw [mem_sortRects]
    apply List.mem_flatMap.mpr
    refine ⟨s, ?_, ?_⟩
    · unfold unifiedKeys
      interval_cases s <;> decide
    · show URect.mk s i ((st.drawZData s).getD i 0) ∈ classifySet env.wc st s
      unfold classifySet
      apply List.mem_filterMap.mpr
      refine ⟨i, List.mem_range.mpr hi, ?_⟩
      rw [if_neg (by simp [hs0])]
  · unfold hasWaterSet
    simp [hs0]
  · intro wf kind
    have hkw : ∀ wf2 kind2, MeshKey.water s wf kind ≠ MeshKey.water 0 wf2 kind2 := by
      intro wf2 kind2 he
      injection he with h1 h2 h3
      exact hs0 h1
    unfold rebuild
    rw [lookupMesh_buildWaters_ne env _ tAx tAy _ hkw, buildUnified_meshes,
      lookupMesh_buildShadow_ne env _ _ (fun he => MeshKey.noConfusion he)]
    exact lookupMesh_map_val st.meshes (fun m => { m with visible := false }) _
  · intro wf kind
    have hkw : ∀ wf2 kind2, MeshKey.water s wf kind ≠ MeshKey.water 0 wf2 kind2 := by
      intro wf2 kind2 he
      injection he with h1 h2 h3
      exact hs0 h1
    exact lookupMesh_updateAnimUVs_ne env st tAx tAy _ hkw

/-- A classifier answering water for every signature (C10's witness). -/
def c10env : Env :=
  { wc := { isWaterRect := fun _ _ => true
            isWaterfallRect := fun _ _ => false
            isKindEnabled := fun _ => true }
    is3D := false
    mapElevation := false }

/-- C10 witness state: one rect on set 3. -/
def c10st : TLState :=
  applyCmds initState
    [Cmd.add { set := 3, u := 0, v := 0, x := 0, y := 0, w := 32, h := 32 }]

/-- Witness for C10: even under an everything-is-water classifier, the set-3
rect reaches the unified list and set 3 is never marked as having water. -/
theorem c10_classifier_only_set0_witness :
    0 < (getRS c10st 3).count ∧
    URect.mk 3 0 ((c10st.drawZData 3).getD 0 0) ∈
      sortRects (allRectsOf c10env.wc c10st) ∧
    hasWaterSet c10env.wc c10st 3 = false :=
  ⟨by decide,
    (c10_classifier_only_set0 c10env c10st 3 0 0 0 (by norm_num) (by norm_num)
      (by decide)).1,
    (c10_classifier_only_set0 c10env c10st 3 0 0 0 (by norm_num) (by norm_num)
      (by decide)).2.1⟩

/-- Environment for C2's failing input: signature `animX = 1` is water,
nothing is a waterfall, every kind is enabled. -/
def c2env : Env :=
  { wc := { isWaterRect := fun ax _ => decide (ax = 1)
            isWaterfallRect := fun _ _ => false
            isKindEnabled := fun _ => true }
    is3D := false
    mapElevation := false }

/-- A decoded 768×768 source bound at layer 0. -/
def c2bms : List (Option Bitmap) :=
  [some { hasImage := true, width := 768, height := 768, version := 0, pixels := fun _ => 0 }]

/-- C2's failing input: a kind-2 water rect followed by a kind-(−1) water
rect, both on set 0 with water signature `animX = 1`. -/
def c2st0 : TLState :=
  applyCmds (setBitmapsFn initState c2bms)
    [Cmd.add { set := 0, u := 0, v := 0, x := 0, y := 0, w := 48, h := 48,
               animX := some 1, animY := some 0, kind := some 2 },
     Cmd.add { set := 0, u := 96, v := 0, x := 48, y := 0, w := 48, h := 48,
               animX := some 1, animY := some 0 }]

/-- State after a rebuild at phase (0,0) and then the fast path at (1,0). -/
def c2fast : TLState := flush c2env (setAnimFn (flush c2env c2st0) 1 0)

/-- State after a single full rebuild at phase (1,0). -/
def c2full : TLState := flush c2env (setAnimFn c2st0 1 0)

/-- C2 divergence: on the kind-(−1) water mesh, the animation fast path
writes the kind-2 rect's animated u (1/768) into vertex 0, while a full
rebuild at the same phase puts the kind-(−1) rect's u (97/768) there —
the fast path's per-mesh filter (`meshKinds` empty ⇒ accept every water
rect) does not match the build-time grouping by kind, so the outputs are
not numerically identical. -/
theorem c2_fastpath_diverges_from_rebuild :
    (lookupMesh c2fast.meshes (MeshKey.water 0 false (-1))).map
        (fun m => m.uv.getD 0 0) = some (1 / 768) ∧
    (lookupMesh c2full.meshes (MeshKey.water 0 false (-1))).map
        (fun m => m.uv.getD 0 0) = some (97 / 768) ∧
    ((1 : ℚ) / 768) ≠ 97 / 768 := by
  refine ⟨?_, ?_, by norm_num⟩
  · with_unfolding_all rfl
  · with_unfolding_all rfl

end ThreeTilemap
